import Mathlib

/-!
Verification development for the round-based consensus engine
(`src/consensus_engine/engine.py` together with its configuration in
`src/consensus_engine/config/settings.py` and
`src/consensus_engine/config/round_config.py`).

The Python code is shallowly embedded: Python `float` is modelled by `ℚ`
(all constants in the engine are decimal literals), Python `dict` by an
association list that preserves insertion order and key uniqueness the way
CPython dictionaries do, and raising an exception by `Except`.  External
collaborators (the LLM back ends, `pylint`-based code validation, and the
two transcendental pieces of scikit-learn's tf-idf pipeline: the `idf`
logarithm and the cosine of two vectors) are parameters of the embedding;
each theorem that needs a mathematical fact about them takes that fact as
an explicit hypothesis.
-/

/- Batteries marks the `Rat` arithmetic operations `@[irreducible]`, which
blocks `decide`/`rfl` evaluation of the engine's rational computations in
the elaborator; re-open them for this file (the kernel is unaffected). -/
attribute [local semireducible] Rat.mul Rat.inv Rat.add Rat.sub Rat.ofScientific

set_option maxRecDepth 40000

/-- Structural decidable equality for `Except` results. -/
instance {e a : Type} [DecidableEq e] [DecidableEq a] : DecidableEq (Except e a) :=
  fun x y =>
    match x, y with
    | .error u, .error v => decidable_of_iff (u = v) (by simp)
    | .ok u, .ok v => decidable_of_iff (u = v) (by simp)
    | .error _, .ok _ => isFalse (by simp)
    | .ok _, .error _ => isFalse (by simp)

namespace CE

/-! ### Basic character and string helpers -/

def isWordChar (c : Char) : Bool := c.isAlphanum || c = '_'

def isSpaceChar (c : Char) : Bool := c.isWhitespace

/-- `isPrefixList p s` : is `p` a prefix of `s` (character-exact). -/
def isPrefixList : List Char → List Char → Bool
  | [], _ => true
  | _ :: _, [] => false
  | p :: ps, c :: cs => p = c && isPrefixList ps cs

/-- Case-insensitive prefix test (models `re.IGNORECASE` on ASCII). -/
def isPrefixCI : List Char → List Char → Bool
  | [], _ => true
  | _ :: _, [] => false
  | p :: ps, c :: cs => p.toLower = c.toLower && isPrefixCI ps cs

/-- Index of the first occurrence of `sub` in `cs`, if any
(models Python's `str.find` / the `in` operator). -/
def findSubIdx (sub : List Char) : List Char → Option Nat
  | [] => if sub = [] then some 0 else none
  | c :: cs =>
    if isPrefixList sub (c :: cs) then some 0
    else (findSubIdx sub cs).map (· + 1)

/-- Python's `sub in s`. -/
def containsStr (s sub : String) : Bool := (findSubIdx sub.toList s.toList).isSome

/-- Maximal runs of characters satisfying `p` (used for `\w+` runs and for
whitespace splitting). -/
def runsByAux (p : Char → Bool) (cur : List Char) : List Char → List (List Char)
  | [] => if cur.isEmpty then [] else [cur.reverse]
  | c :: cs =>
    if p c then runsByAux p (c :: cur) cs
    else if cur.isEmpty then runsByAux p [] cs
    else cur.reverse :: runsByAux p [] cs

def runsBy (p : Char → Bool) (cs : List Char) : List (List Char) := runsByAux p [] cs

/-- Deduplicate keeping the first occurrence of each element
(Python `set` construction / dict-key iteration order). -/
def dedupFirstAux (seen : List String) : List String → List String
  | [] => []
  | x :: xs =>
    if x ∈ seen then dedupFirstAux seen xs
    else x :: dedupFirstAux (x :: seen) xs

def dedupFirst (l : List String) : List String := dedupFirstAux [] l

/-- `text.split(sep)` for a single-character separator: splits at every
occurrence, keeping empty parts (`"".split(c) = [""]`). -/
def splitOnCharList (sep : Char) : List Char → List (List Char)
  | [] => [[]]
  | c :: cs =>
    if c = sep then [] :: splitOnCharList sep cs
    else
      match splitOnCharList sep cs with
      | r :: rs => (c :: r) :: rs
      | [] => [[c]]

def splitLinesStr (s : String) : List String :=
  (splitOnCharList '\n' s.toList).map String.mk

def splitCommasStr (s : String) : List String :=
  (splitOnCharList ',' s.toList).map String.mk

/-- Python `str.strip()`. -/
def trimStr (s : String) : String :=
  String.mk (((s.toList.dropWhile isSpaceChar).reverse.dropWhile isSpaceChar).reverse)

/-- `sep.join(parts)`. -/
def joinSep (sep : String) : List String → String
  | [] => ""
  | [x] => x
  | x :: xs => x ++ sep ++ joinSep sep xs

/-! ### Ordered dictionaries (CPython `dict` semantics) -/

/-- Lookup in an ordered association list (first matching key). -/
def dictGet? {α : Type} (d : List (String × α)) (k : String) : Option α :=
  match d with
  | [] => none
  | (k', v) :: rest => if k' = k then some v else dictGet? rest k

/-- `d[k] = v` with CPython semantics: update in place if the key exists,
otherwise append at the end. -/
def dictUpd {α : Type} (d : List (String × α)) (k : String) (v : α) :
    List (String × α) :=
  match d with
  | [] => [(k, v)]
  | (k', v') :: rest =>
    if k' = k then (k', v) :: rest else (k', v') :: dictUpd rest k v

def dictKeys {α : Type} (d : List (String × α)) : List String := d.map Prod.fst

/-- All ordered pairs `(l[i], l[j])` with `i < j` (the double loop
`for i in range(n): for j in range(i+1, n)` used throughout the engine). -/
def listPairs {α : Type} : List α → List (α × α)
  | [] => []
  | x :: xs => xs.map (fun y => (x, y)) ++ listPairs xs

/-! ### difflib.SequenceMatcher

`ratio()` is `2*M/T` where `M` is the total size of the matching blocks
found by recursively taking the longest matching contiguous block (ties
broken towards the earliest position in `a`, then in `b`) and `T` is the
total length of the two sequences.

The engine constructs `SequenceMatcher(None, a, b)` — no `isjunk`
predicate — so in `__chain_b` the `bjunk` set stays empty and the
`autojunk` heuristic only fills `bpopular`: when `len(b) >= 200`, every
element with more than `len(b) // 100 + 1` occurrences is purged from the
`b2j` index.  Consequently in `find_longest_match` the inner loop neither
starts nor chains a match on a popular element, while the two "extend the
best by non-junk elements" loops — whose test `isbjunk` consults the
empty `bjunk`, not `bpopular` — extend the best block across *any* equal
elements, popular ones included, and the two junk-extension loops never
fire (`isbjunk` is constantly false). -/

/-- An element of `b` is "popular" (`__chain_b` with `autojunk=True` and
no `isjunk`): `len(b) >= 200` and more than `len(b) // 100 + 1`
occurrences in `b`. -/
def isPopular (b : List Char) (c : Char) : Bool :=
  decide (200 ≤ b.length) && decide (b.length / 100 + 1 < b.count c)

def commonPrefixLen : List Char → List Char → Nat
  | a :: as_, b :: bs => if a = b then commonPrefixLen as_ bs + 1 else 0
  | _, _ => 0

/-- The matching run at one candidate start, chained only through
non-popular `b` elements: popular elements are absent from `b2j`, so in
the inner loop they neither start a `j2len` chain nor continue one. -/
def cplJ (pop : Char → Bool) : List Char → List Char → Nat
  | a :: as_, b :: bs =>
    if a = b then (if pop b then 0 else cplJ pop as_ bs + 1) else 0
  | _, _ => 0

/-- Candidate start positions `(i, j)`, in the tie-breaking order (the
inner loop discovers a block of size `k` at its end row `i + k - 1`, so
for equal sizes earliest end row — equivalently earliest start row —
then smallest `j` wins). -/
def candList (a b : List Char) : List (Nat × Nat) :=
  (List.range a.length).flatMap (fun i => (List.range b.length).map (fun j => (i, j)))

/-- The longest-match search loop: the running best `(bi, bj, bk)` is
replaced only on a strictly longer match, so the first (earliest) longest
match wins. -/
def bmGo (pop : Char → Bool) (a b : List Char) :
    Nat → Nat → Nat → List (Nat × Nat) → Nat × Nat × Nat
  | bi, bj, bk, [] => (bi, bj, bk)
  | bi, bj, bk, p :: ps =>
    let k := cplJ pop (a.drop p.1) (b.drop p.2)
    if bk < k then bmGo pop a b p.1 p.2 k ps else bmGo pop a b bi bj bk ps

/-- The number of steps taken by the left extension loop (`while besti >
alo and bestj > blo and not isbjunk(b[bestj-1]) and a[besti-1] ==
b[bestj-1]`, with `isbjunk` constantly false): the longest common suffix
of the two prefixes. -/
def extendLeft (a b : List Char) (bi bj : Nat) : Nat :=
  commonPrefixLen ((a.take bi).reverse) ((b.take bj).reverse)

/-- `find_longest_match` with `isjunk=None`: the inner-loop best block
over non-popular elements, then the "extend by non-junk elements" loops —
vacuous junk guard — extending by equal elements, left first, then right
from the block end (which the left extension leaves unchanged); the two
junk-extension loops never fire. -/
def bestMatch (pop : Char → Bool) (a b : List Char) : Nat × Nat × Nat :=
  let core := bmGo pop a b 0 0 0 (candList a b)
  let eL := extendLeft a b core.1 core.2.1
  let bi := core.1 - eL
  let bj := core.2.1 - eL
  let bk := core.2.2 + eL
  let eR := commonPrefixLen (a.drop (bi + bk)) (b.drop (bj + bk))
  (bi, bj, bk + eR)

/-- Total matched size, by recursively splitting around the longest match
(`get_matching_blocks`).  The popularity predicate is fixed from the
top-level `b`, as `b2j` is built once in `__chain_b`.  Structural
recursion on explicit fuel (`a.length + 1` always suffices, since every
recursive call strictly shortens `a`). -/
def matchingTotalFuel (pop : Char → Bool) : Nat → List Char → List Char → Nat
  | 0, _, _ => 0
  | fuel + 1, a, b =>
    let m := bestMatch pop a b
    if m.2.2 = 0 then 0
    else
      matchingTotalFuel pop fuel (a.take m.1) (b.take m.2.1) + m.2.2 +
        matchingTotalFuel pop fuel (a.drop (m.1 + m.2.2)) (b.drop (m.2.1 + m.2.2))

def matchingTotal (a b : List Char) : Nat :=
  matchingTotalFuel (isPopular b) (a.length + 1) a b

/-- `SequenceMatcher(None, a, b).ratio()`. -/
def ratioScore (a b : List Char) : ℚ :=
  let total := a.length + b.length
  if total = 0 then 1 else 2 * (matchingTotal a b : ℚ) / (total : ℚ)

/-! ### Text normalization and section extraction (`_calculate_similarity` helpers) -/

def ticks : List Char := "```".toList

/-- Remove every lazily-matched ``` … ``` pair
(`re.sub(r'```[\s\S]*?```', '', text)`).  Fuel-structural; each step
consumes at least the six fence characters. -/
def stripFencesFuel : Nat → List Char → List Char
  | 0, cs => cs
  | fuel + 1, cs =>
    match findSubIdx ticks cs with
    | none => cs
    | some p =>
      let rest := cs.drop (p + 3)
      match findSubIdx ticks rest with
      | none => cs
      | some q => cs.take p ++ stripFencesFuel fuel (rest.drop (q + 3))

/-- `normalize_text` from `_calculate_similarity`: drop fenced code blocks,
lower-case, strip, and collapse whitespace runs to single spaces. -/
def normalizeText (t : String) : String :=
  let noFences := stripFencesFuel (t.toList.length + 1) t.toList
  let lowered := noFences.map Char.toLower
  joinSep " " ((runsBy (fun c => !isSpaceChar c) lowered).map String.mk)

/-- Python `str.isupper()` on ASCII: at least one cased character and every
cased character upper-case. -/
def isUpperStr (s : String) : Bool :=
  s.toList.any (·.isAlpha) && s.toList.all (fun c => !c.isAlpha || c.isUpper)

def takeUntilColon (s : String) : String := String.mk (s.toList.takeWhile (· ≠ ':'))

def afterColon (s : String) : String := String.mk ((s.toList.dropWhile (· ≠ ':')).drop 1)

/-- One line of the `extract_sections` loop.  State: sections built so far,
current section label, accumulated (already stripped) lines. -/
def sectionStepLine (st : List (String × String) × Option String × List String)
    (line : String) : List (String × String) × Option String × List String :=
  let (secs, cur, lns) := st
  if containsStr line ":" && isUpperStr (takeUntilColon line) then
    let secs' := match cur with
      | some c => dictUpd secs c (joinSep " " lns)
      | none => secs
    (secs', some (takeUntilColon line), [trimStr (afterColon line)])
  else
    match cur with
    | some _ => (secs, cur, lns ++ [trimStr line])
    | none => (secs, cur, lns)

/-- `extract_sections`: labelled sections `LABEL: content`, content lines
stripped and joined with single spaces. -/
def extractSections (text : String) : List (String × String) :=
  let (secs, cur, lns) := (splitLinesStr text).foldl sectionStepLine ([], none, [])
  match cur with
  | some c => dictUpd secs c (joinSep " " lns)
  | none => secs

/-! ### Code blocks, signatures, identifiers (`_extract_code_blocks` etc.) -/

/-- `_normalize_code`: strip `#`-comments, strip each line, drop blank lines. -/
def normalizeCode (code : String) : String :=
  let noComments := (splitLinesStr code).map
    (fun l => String.mk (l.toList.takeWhile (· ≠ '#')))
  joinSep "\n" ((noComments.map trimStr).filter (· ≠ ""))

/-- Scanner for `re.findall(r"```[\w]*\n(.*?)```", text, re.DOTALL)`:
an opening fence is ``` followed by an optional word-character run and a
mandatory newline; the body is lazily captured up to the next ```. -/
def rawBlocksFuel : Nat → List Char → List String
  | 0, _ => []
  | fuel + 1, cs =>
    match cs with
    | [] => []
    | _ :: rest =>
      if isPrefixList ticks cs then
        let after := cs.drop 3
        let afterW := after.drop (after.takeWhile isWordChar).length
        match afterW with
        | '\n' :: body =>
          match findSubIdx ticks body with
          | some q => String.mk (body.take q) :: rawBlocksFuel fuel (body.drop (q + 3))
          | none => rawBlocksFuel fuel rest
        | _ => rawBlocksFuel fuel rest
      else rawBlocksFuel fuel rest

/-- `_extract_code_blocks`: matched fenced blocks, each normalized. -/
def extractCodeBlocks (t : String) : List String :=
  (rawBlocksFuel (t.toList.length + 1) t.toList).map normalizeCode

/-- Match `def\s+\w+\s*\([^)]*\)` starting exactly at `cs`; returns the whole
matched text and the remaining input. -/
def matchSigAt (cs : List Char) : Option (String × List Char) :=
  if isPrefixList "def".toList cs then
    let after := cs.drop 3
    let ws := after.takeWhile isSpaceChar
    if ws.isEmpty then none
    else
      let afterWs := after.drop ws.length
      let nm := afterWs.takeWhile isWordChar
      if nm.isEmpty then none
      else
        let afterNm := afterWs.drop nm.length
        let ws2 := afterNm.takeWhile isSpaceChar
        match afterNm.drop ws2.length with
        | '(' :: rest2 =>
          let args := rest2.takeWhile (· ≠ ')')
          match rest2.drop args.length with
          | ')' :: rem =>
            some (String.mk (cs.take (3 + ws.length + nm.length + ws2.length +
              1 + args.length + 1)), rem)
          | _ => none
        | _ => none
  else none

def sigScanFuel : Nat → List Char → List String
  | 0, _ => []
  | fuel + 1, cs =>
    match cs with
    | [] => []
    | _ :: rest =>
      match matchSigAt cs with
      | some (sig, rem) => sig :: sigScanFuel fuel rem
      | none => sigScanFuel fuel rest

/-- `_extract_signatures`: all function-signature matches joined by spaces. -/
def extractSignatures (code : String) : String :=
  joinSep " " (sigScanFuel (code.toList.length + 1) code.toList)

/-- `re.findall(r'\b[a-zA-Z_]\w*\b', code)` as a set: the maximal word-character
runs whose first character is a letter or underscore. -/
def identifiersOf (code : String) : List String :=
  ((runsBy isWordChar code.toList).filter
    (fun r => match r with
      | c :: _ => c.isAlpha || c = '_'
      | [] => false)).map String.mk

/-- Jaccard similarity of two string sets (inputs treated as sets). -/
def jaccardQ (l1 l2 : List String) : ℚ :=
  let s1 := dedupFirst l1
  let s2 := dedupFirst l2
  let inter := (s1.filter (· ∈ s2)).length
  let uni := (dedupFirst (s1 ++ s2)).length
  (inter : ℚ) / (uni : ℚ)

/-- `compare_code` inside `_calculate_code_similarity`:
`0.5 * structure + 0.3 * signatures + 0.2 * identifier Jaccard`. -/
def compareCode (c1 c2 : String) : ℚ :=
  let structSim := ratioScore c1.toList c2.toList
  let sigSim := ratioScore (extractSignatures c1).toList (extractSignatures c2).toList
  let vars1 := dedupFirst (identifiersOf c1)
  let vars2 := dedupFirst (identifiersOf c2)
  let varSim := if vars1.isEmpty && vars2.isEmpty then 0 else jaccardQ vars1 vars2
  structSim * (1/2 : ℚ) + sigSim * (3/10 : ℚ) + varSim * (1/5 : ℚ)

/-- The list of pairwise scores built by `_calculate_code_similarity`
(`for i: for j > i: for (c1, c2) in zip(blocks[i], blocks[j])`). -/
def codePairSims (blocks : List (List String)) : List ℚ :=
  ((listPairs blocks).map
    (fun pr => (pr.1.zip pr.2).map (fun cc => compareCode cc.1 cc.2))).flatten

/-- `_calculate_code_similarity`: 0 when there are no block lists or some list
is empty, otherwise the minimum pairwise score (0 when no pair exists). -/
def codeSimilarity (blocks : List (List String)) : ℚ :=
  if blocks.isEmpty || blocks.any List.isEmpty then 0
  else
    match codePairSims blocks with
    | [] => 0
    | s :: rest => rest.foldl min s

/-! ### Evidence similarity (`_calculate_evidence_similarity`) -/

def evidenceLabel : List Char := "EVIDENCE:".toList

/-- `extract_evidence`: the comma-separated, stripped items of the text between
the first `EVIDENCE:` and the following newline (or next `EVIDENCE:`,
because of `text.split('EVIDENCE:')[1]`). -/
def extractEvidence (t : String) : List String :=
  match findSubIdx evidenceLabel t.toList with
  | none => []
  | some p =>
    let after := t.toList.drop (p + evidenceLabel.length)
    let seg := match findSubIdx evidenceLabel after with
      | some q => after.take q
      | none => after
    (splitCommasStr (String.mk (seg.takeWhile (· ≠ '\n')))).map trimStr

def evidenceSimilarity (texts : List String) : ℚ :=
  let allEv := texts.map extractEvidence
  if allEv.any List.isEmpty then 0
  else
    let sims := (listPairs allEv).map (fun pr =>
      let s1 := dedupFirst pr.1
      let s2 := dedupFirst pr.2
      if s1.isEmpty && s2.isEmpty then 0 else jaccardQ pr.1 pr.2)
    if sims.isEmpty then 0 else sims.sum / (sims.length : ℚ)

/-! ### Engine environment: the external mathematical/library pieces

`cos` models `sklearn.metrics.pairwise.cosine_similarity` applied to two
tf-idf rows (the real function satisfies `cos u u = 1` for `u ≠ 0`);
`idf` models sklearn's smoothed inverse document frequency
`ln((1 + n)/(1 + df)) + 1` (strictly positive since `df ≤ n`);
`stopWords` is sklearn's built-in english stop list when the engine's NLTK
setup succeeded and empty otherwise (`stop_words='english' if
self.nltk_enabled else None`); `fmt2` renders a float with `f"{x:.2f}"`
(its output only ever flows into prompt text). -/
structure Env where
  cos : List ℚ → List ℚ → ℚ
  idf : Nat → Nat → ℚ
  stopWords : List String
  fmt2 : ℚ → String

/-! ### Tf-idf vectorization (`TfidfVectorizer(stop_words=…, max_features=1000)`) -/

/-- sklearn's default token pattern `(?u)\b\w\w+\b` after lower-casing,
then stop-word removal. -/
def tokensOf (stop : List String) (doc : String) : List String :=
  (((runsBy isWordChar doc.toList).filter (fun r => 2 ≤ r.length)).map
    (fun r => String.mk (r.map Char.toLower))).filter (fun t => !stop.contains t)

/-- Insertion sort by a boolean `le` (stable). -/
def insortBy {α : Type} (le : α → α → Bool) : List α → List α
  | [] => []
  | x :: xs =>
    let rec ins (x : α) : List α → List α
      | [] => [x]
      | y :: ys => if le x y then x :: y :: ys else y :: ins x ys
    ins x (insortBy le xs)

/-- Lexicographic code-point order on strings (Python `str` comparison,
used by sklearn to sort the fitted vocabulary). -/
def charListLe : List Char → List Char → Bool
  | [], _ => true
  | _ :: _, [] => false
  | a :: as_, b :: bs => if a = b then charListLe as_ bs else decide (a.toNat < b.toNat)

def strLe (a b : String) : Bool := charListLe a.toList b.toList

def countOcc (t : String) (dt : List String) : Nat := dt.count t

def dfCount (t : String) (toks : List (List String)) : Nat :=
  (toks.filter (fun d => d.contains t)).length

/-- `max_features=1000`: keep the 1000 vocabulary terms with the highest total
corpus count (stable by alphabetical vocabulary order), re-sorted
alphabetically.  Never active in this file (all vocabularies are tiny). -/
def limitFeatures (vocab : List String) (toks : List (List String)) : List String :=
  insortBy strLe
    (((insortBy (fun a b => decide (countOcc b toks.flatten ≤ countOcc a toks.flatten))
      vocab).take 1000))

/-- `fit_transform`: `none` models the `ValueError: empty vocabulary` raised
when no document yields any token.  Rows are unnormalized tf·idf vectors;
sklearn l2-normalizes each row, but cosine similarity is invariant under
positive scaling of its arguments, so `Env.cos` receives the raw rows. -/
def tfidfVectors (env : Env) (docs : List String) : Option (List (List ℚ)) :=
  let toks := docs.map (tokensOf env.stopWords)
  let vocab0 := insortBy strLe (dedupFirst toks.flatten)
  let vocab := if vocab0.length ≤ 1000 then vocab0 else limitFeatures vocab0 toks
  if vocab.isEmpty then none
  else some (toks.map (fun dt =>
    vocab.map (fun t => (countOcc t dt : ℚ) * env.idf docs.length (dfCount t toks))))

/-- `(cosine_similarity(M).sum() - n) / (n * (n - 1))` for the row set `vecs`. -/
def avgPairCos (env : Env) (vecs : List (List ℚ)) : ℚ :=
  let n : ℚ := (vecs.length : ℚ)
  let total := (vecs.map (fun u => (vecs.map (fun v => env.cos u v)).sum)).sum
  (total - n) / (n * (n - 1))

/-! ### `_calculate_similarity` -/

/-- The per-section body of the `try:` block: for a section present with
non-empty content in every response, vectorize the normalized contents and
record the average pairwise cosine; a degenerate vocabulary raises
(short-circuiting the whole `try:` into the fallback). -/
def sectionStep (env : Env) (secs : List (List (String × String)))
    (acc : Except Unit (List ℚ)) (nm : String) : Except Unit (List ℚ) :=
  match acc with
  | .error e => .error e
  | .ok sims =>
    let stexts := secs.map (fun s => (dictGet? s nm).getD "")
    if stexts.all (fun s => s ≠ "") then
      match tfidfVectors env (stexts.map normalizeText) with
      | none => .error ()
      | some vs => .ok (sims ++ [avgPairCos env vs])
    else .ok sims

/-- `_calculate_similarity(responses)`: the argument is the list of dict
values in insertion order (keys are irrelevant: the engine calls it with
`{str(i): text}`). -/
def calcSimilarity (env : Env) (texts : List String) : ℚ :=
  if texts.length < 2 then 0
  else
    let secs := texts.map extractSections
    let names := dedupFirst (secs.map dictKeys).flatten
    match names.foldl (sectionStep env secs) (.ok []) with
    | .ok sims => if sims.isEmpty then 0 else sims.sum / (sims.length : ℚ)
    | .error _ =>
      let ts := texts.map normalizeText
      let sims := (listPairs ts).map (fun pr => ratioScore pr.1.toList pr.2.toList)
      if sims.isEmpty then 0 else sims.sum / (sims.length : ℚ)

/-! ### Confidence and evaluation-score extraction -/

def parseDigits (ds : List Char) : Nat :=
  ds.foldl (fun n c => n * 10 + (c.toNat - 48)) 0

/-- The number matched by `\d*\.?\d+` anchored at `cs` (with the regex
backtracking semantics: `"85."` yields `85`, `".85"` yields `0.85`),
or `none` if no match starts here. -/
def parseNumAt (cs : List Char) : Option ℚ :=
  let d := cs.takeWhile Char.isDigit
  match cs.drop d.length with
  | '.' :: r2 =>
    let e := r2.takeWhile Char.isDigit
    if e ≠ [] then
      some ((parseDigits d : ℚ) + (parseDigits e : ℚ) / ((10 : ℚ) ^ e.length))
    else if d ≠ [] then some ((parseDigits d : ℚ)) else none
  | _ => if d ≠ [] then some ((parseDigits d : ℚ)) else none

/-- `re.search(label + r"\s*(\d*\.?\d+)", text, re.IGNORECASE)`: leftmost
position where the whole pattern matches. -/
def findLabeledNumAux (label : List Char) : List Char → Option ℚ
  | [] => none
  | c :: t =>
    if isPrefixCI label (c :: t) then
      match parseNumAt (((c :: t).drop label.length).dropWhile isSpaceChar) with
      | some v => some v
      | none => findLabeledNumAux label t
    else findLabeledNumAux label t

def findLabeledNum (label : String) (t : String) : Option ℚ :=
  findLabeledNumAux label.toList t.toList

def clamp01 (x : ℚ) : ℚ := min (max x 0) 1

/-- `_extract_confidence`: value after a case-insensitive `CONFIDENCE:` label,
treated as a percentage when `> 1`, clamped to `[0, 1]`; `0.0` when no
parseable confidence exists. -/
def extractConfidence (t : String) : ℚ :=
  match findLabeledNum "CONFIDENCE:" t with
  | some c => clamp01 (if c > 1 then c / 100 else c)
  | none => 0

/-- Earliest `\d*\.?\d+` match on the current line (the lazy `.*?` of the
category fallback patterns; `.` does not cross newlines). -/
def scanLineForNum : List Char → Option ℚ
  | [] => none
  | c :: t =>
    if c = '\n' then none
    else
      match parseNumAt (c :: t) with
      | some v => some v
      | none => scanLineForNum t

/-- `re.search(word + r".*?(\d*\.?\d+)", lowered)`: leftmost occurrence of
`word` followed by a number on the same line. -/
def findWordNumAux (word : List Char) : List Char → Option ℚ
  | [] => none
  | c :: t =>
    if isPrefixList word (c :: t) then
      match scanLineForNum ((c :: t).drop word.length) with
      | some v => some v
      | none => findWordNumAux word t
    else findWordNumAux word t

/-- `_extract_evaluation_score`: the `EVALUATION_SCORE:` label, else the
average of the per-category scores found by the fallback patterns, else 0. -/
def extractEvaluationScore (t : String) : ℚ :=
  match findLabeledNum "EVALUATION_SCORE:" t with
  | some v => clamp01 (if v > 1 then v / 100 else v)
  | none =>
    let lowered := t.toList.map Char.toLower
    let cats := ["correctness", "efficiency", "error handling", "code style",
      "completeness"]
    let scores := cats.filterMap (fun cpat =>
      (findWordNumAux cpat.toList lowered).map
        (fun v => clamp01 (if v > 1 then v / 100 else v)))
    if scores.isEmpty then 0 else scores.sum / (scores.length : ℚ)

/-! ### Round configuration (`config/round_config.py`, `config/settings.py`) -/

inductive RoundType
  | PRE_FLOP | FLOP | TURN | RIVER | SHOWDOWN
deriving DecidableEq, Repr

open RoundType in
/-- `ROUND_SEQUENCE = ["PRE_FLOP", "FLOP", "TURN", "RIVER", "SHOWDOWN"]`. -/
def roundSequence : List RoundType := [PRE_FLOP, FLOP, TURN, RIVER, SHOWDOWN]

/-- `ROUND_SEQUENCE[-1]`. -/
def lastRound : RoundType := (roundSequence.getLast?).getD .SHOWDOWN

/-- `ROUND_CONFIGS[round_type]["required_confidence"]`. -/
def requiredConfidence : RoundType → ℚ
  | .PRE_FLOP => 0
  | .FLOP => 1/2
  | .TURN => 3/5
  | .RIVER => 7/10
  | .SHOWDOWN => 3/4

/-- `CONSENSUS_SETTINGS["consensus_threshold"] = 0.70` (`settings.py`),
read once in `ConsensusEngine.__init__` and used for every stage. -/
def consensusThreshold : ℚ := 7/10

/-- `CONFIDENCE_GUIDANCE` (module-level string in `round_config.py`). -/
def confidenceGuidance : String :=
  "\nConfidence Guidelines (0.0-1.0):\n- Base your confidence on agreement with other participants\n- Consider how close your position is to others\n- Account for shared evidence and reasoning\n- Confidence should reflect likelihood of consensus\n\nCurrent consensus metrics:\n- Text similarity between responses\n- Code similarity (for programming solutions)\n- Shared evidence and citations \n- Common terminology and framing\n\nYour confidence score impacts consensus:\n- Higher scores (>0.8) require strong alignment with others\n- Medium scores (0.5-0.7) show potential for consensus\n- Lower scores (<0.5) indicate significant differences\n"

/-- `CODE_CONSENSUS_GUIDANCE`. -/
def codeConsensusGuidance : String :=
  "\nFor code solutions:\n1. Match structure and organization\n2. Use identical:\n   - Variable names\n   - Function signatures\n   - Error handling\n   - Comment style\n3. Produce same output format\n4. Follow same patterns\n"

/-- `ROUND_CONFIGS[rt]["consensus_guidance"]` after the module-level
`.strip()` applied at the bottom of `round_config.py`.  The RIVER template
references `{agreed_format}` and the SHOWDOWN template `{strict_format}`;
neither name is among the keyword arguments supplied by
`_format_round_prompt`, which makes `str.format` raise `KeyError` there. -/
def roundGuidance : RoundType → String
  | .PRE_FLOP => "Expected format sections:\n        - UNDERSTANDING\n        - CONSTRAINTS\n        - INITIAL_POSITION\n        - CONFIDENCE\n\n        Current metrics:\n        1. Current similarity score: {similarity}\n        2. Average confidence: {avg_confidence}\n        3. Consensus requires {consensus_threshold} similarity\n        \n        To increase consensus:\n        - Use consistent problem interpretation\n        - Identify same key constraints\n        - Align initial positions where possible"
  | .FLOP => "Expected format sections:\n        - FORMAT_PROPOSAL\n        - INITIAL_SOLUTION\n        - RATIONALE\n        - CONFIDENCE\n\n        Progress metrics:\n        1. Current similarity: {similarity}\n        2. Required similarity: {consensus_threshold}\n        3. Group confidence: {avg_confidence}\n        4. Main differences: {key_differences}\n        \n        Focus on:\n        - Proposing clear solution formats\n        - Building on others' format suggestions\n        - Providing structured initial solutions"
  | .TURN => "Expected format sections:\n        - FORMAT_AGREEMENT\n        - REFINED_SOLUTION\n        - FORMAT_IMPROVEMENTS\n        - CONFIDENCE\n\n        Current metrics:\n        1. Similarity score: {similarity}\n        2. Consensus target: {consensus_threshold}\n        3. Response alignment: {alignment_areas}\n        4. Outstanding issues: {remaining_issues}\n        \n        Focus areas:\n        - Align on common format elements\n        - Adapt solutions to shared structure\n        - Propose final format refinements"
  | .RIVER => "Expected format:\n        IMPLEMENTATION: {agreed_format}\n\n        Consensus status:\n        1. Current similarity: {similarity}\n        2. Target threshold: {consensus_threshold}\n        3. Group confidence: {avg_confidence}\n        4. Key alignments: {key_alignments}\n        \n        Requirements:\n        - Use EXACTLY the agreed format\n        - No format modifications allowed\n        - Include all required sections\n        - Note format concerns in confidence explanation"
  | .SHOWDOWN => "Required format:\n        IMPLEMENTATION: {strict_format}\n\n        Final metrics:\n        1. Current similarity: {similarity}\n        2. Required for consensus: {consensus_threshold}\n        3. Collective confidence: {avg_confidence}\n        \n        Final requirements:\n        - Provide ONLY the solution\n        - Use exact agreed format\n        - No meta-discussion or explanations\n        - Focus on original question"

/-- `RESPONSE_FORMAT[rt]` (appended verbatim, never `.format`-ed, so its
brace placeholders are inert). -/
def responseFormat : RoundType → String
  | .PRE_FLOP => "\n    Format your response:\n    UNDERSTANDING: [Problem interpretation]\n    CONSTRAINTS: [Key limitations]\n    INITIAL_POSITION: [Starting stance]\n    CONFIDENCE: [0.0-1.0 score + why]\n    "
  | .FLOP => "\n    1. First, review others' initial responses and propose a solution format:\n\n    FORMAT_PROPOSAL:\n    [Propose 2-3 key sections that any solution should include]\n    [Explain why these sections are important]\n\n    INITIAL_SOLUTION:\n    [Present your initial solution using your proposed format]\n\n    RATIONALE:\n    [Explain why your format would work well for this problem]\n\n    CONFIDENCE: [0.0-1.0 with explanation]\n    "
  | .TURN => "\n    Review the format proposals from the FLOP round.\n\n    FORMAT_AGREEMENT:\n    [State which parts of proposed formats you agree with]\n    [Suggest specific refinements needed]\n\n    REFINED_SOLUTION:\n    [Present your solution using the most commonly agreed sections]\n    [Adapt your previous response to match common structure]\n\n    FORMAT_IMPROVEMENTS:\n    [Suggest any final format adjustments needed]\n\n    CONFIDENCE: [0.0-1.0 with explanation]\n    "
  | .RIVER => "\n    Based on previous format discussions, we will use this structure:\n    IMPLEMENTATION: {agreed_format}\n\n    Present your solution using EXACTLY this format, no additions or modifications.\n    Include ONLY the sections listed above.\n\n    If you have concerns about the format, you must still use it exactly as specified.\n    You can note format concerns in your confidence score explanation.\n\n    Lock in on the agreed format and solution, do not deviate at all\n\n    CONFIDENCE: [0.0-1.0 with explanation of both solution and format confidence]\n    "
  | .SHOWDOWN => "\n    Using the agreed format, provide ONLY the solution to the original prompt,\n    DO NOT DEVIATE FROM THE FORMAT, DO NOT ADD ANYTHING ELSE. DEVIATING FROM THE FORMAT WILL RESULT IN A LOW CONFIDENCE SCORE AND LOSS OF THE GAME.\n    IMPLEMENTATION: {strict_format}\n\n    No meta-discussion, NO EXPLANATIONS.\n    Focus only on answering the original question using our agreed structure.\n    CONFIDENCE: [0.0-1.0 float or integer only]\n    "

/-! ### Python exceptions relevant to the engine -/

inductive PyErr
  | zeroDiv   -- ZeroDivisionError
  | keyErr    -- KeyError
  | valueErr  -- ValueError
deriving DecidableEq, Repr

/-! ### `str.format` (the subset the templates exercise) -/

def braceL : Char := Char.ofNat 123

def braceR : Char := Char.ofNat 125

/-- `tmpl.format(**vals)`: replace each brace placeholder by its value, raise
`KeyError` on an unknown name.  (The `"{{"`, `"}}"` escapes never occur in the
engine's templates, so a stray closing brace raises as in CPython.) -/
def pyFormatAux (vals : List (String × String)) : Nat → List Char →
    Except PyErr (List Char)
  | 0, _ => .error .valueErr
  | _ + 1, [] => .ok []
  | fuel + 1, c :: cs =>
    if c = braceL then
      let key := cs.takeWhile (· ≠ braceR)
      match cs.drop key.length with
      | _ :: rest =>
        match dictGet? vals (String.mk key) with
        | some v => (pyFormatAux vals fuel rest).map (fun r => v.toList ++ r)
        | none => .error .keyErr
      | [] => .error .valueErr
    else if c = braceR then .error .valueErr
    else (pyFormatAux vals fuel cs).map (fun r => c :: r)

def pyFormat (tmpl : String) (vals : List (String × String)) : Except PyErr String :=
  (pyFormatAux vals (tmpl.toList.length + 1) tmpl.toList).map String.mk

/-! ### Data carried per response and per stage -/

structure RespData where
  response : String
  confidence : ℚ
deriving DecidableEq, Repr

/-- The numeric part of the `metrics` dict built by `_check_consensus`.
Its four note lists (`key_differences`, `alignment_areas`,
`remaining_issues`, `key_alignments`) are initialized empty and never
appended to anywhere in the engine, so they are omitted and the prompt
composer joins them to the empty string. -/
structure Metrics where
  similarity : ℚ
  avg_confidence : ℚ
deriving DecidableEq, Repr

structure CheckResult where
  consensus_reached : Bool
  metrics : Metrics
deriving DecidableEq, Repr

/-! ### `_check_consensus` -/

/-- `_check_consensus(responses, round_type)`.  With zero surviving
responses `sum(confidences) / len(confidences)` raises
`ZeroDivisionError` (the base similarity computed just before is total
and its value is discarded by the raise). -/
def checkConsensus (env : Env) (rt : RoundType)
    (responses : List (String × RespData)) : Except PyErr CheckResult :=
  let texts := responses.map (fun r => r.2.response)
  let confidences := responses.map (fun r => r.2.confidence)
  let baseSim := calcSimilarity env texts
  if responses.isEmpty then .error .zeroDiv
  else
    let avgConf := confidences.sum / (confidences.length : ℚ)
    let hasCode := texts.any (fun t => containsStr t "```")
    let hasEvidence := texts.any (fun t => containsStr t "EVIDENCE:")
    let sim1 :=
      if hasCode then
        let cbs := texts.map extractCodeBlocks
        if cbs.all (fun l => !l.isEmpty) then
          baseSim * (3/10 : ℚ) + codeSimilarity cbs * (7/10 : ℚ)
        else baseSim
      else baseSim
    let sim2 :=
      if hasEvidence then sim1 * (7/10 : ℚ) + evidenceSimilarity texts * (3/10 : ℚ)
      else sim1
    .ok { consensus_reached :=
            decide (consensusThreshold ≤ sim2) &&
              decide (requiredConfidence rt ≤ avgConf),
          metrics := { similarity := sim2, avg_confidence := avgConf } }

/-! ### `_get_cross_evaluations` -/

def codeEvalPre : String :=
  "\n                        Evaluate this code solution:\n                        "

def codeEvalPost : String :=
  "\n                        \n                        Rate each category from 0-1:\n                        1. Correctness (0-1): How well does it solve the problem?\n                        2. Efficiency (0-1): How well does it use resources?\n                        3. Error Handling (0-1): How well does it handle edge cases?\n                        4. Code Style (0-1): How clean and maintainable is the code?\n                        5. Completeness (0-1): How complete is the implementation?\n                        \n                        Provide your final score as:\n                        EVALUATION_SCORE: [0-1]\n                        "

def textEvalPre : String :=
  "\n                        Evaluate this response:\n                        "

def textEvalPost : String :=
  "\n                        \n                        Consider:\n                        1. Accuracy of information\n                        2. Completeness of answer\n                        3. Clarity of explanation\n                        4. Practical usefulness\n                        5. Overall quality\n                        \n                        Provide your evaluation as a single score:\n                        EVALUATION_SCORE: [0-1]\n                        "

/-- The evaluation prompt: the code rubric when the target response contains
a fence, the prose rubric otherwise. -/
def evalPromptFor (resp : String) : String :=
  if containsStr resp "```" then codeEvalPre ++ resp ++ codeEvalPost
  else textEvalPre ++ resp ++ textEvalPost

/-- `evaluations.setdefault(e, {})[t] = s` — the two-step insertion used in
both the success and the failure branch of `_get_cross_evaluations`. -/
def addEval (evals : List (String × List (String × ℚ))) (e t : String) (s : ℚ) :
    List (String × List (String × ℚ)) :=
  match dictGet? evals e with
  | none => evals ++ [(e, [(t, s)])]
  | some d => dictUpd evals e (dictUpd d t s)

/-- The score recorded for one `(evaluator, target)` attempt: the extracted
evaluation score on success, `0.0` when the call raised (the `except:`
branch). -/
def crossScore (evalCall : String → String → Except Unit String)
    (e : String) (resp : String) : ℚ :=
  match evalCall e (evalPromptFor resp) with
  | .ok r => extractEvaluationScore r
  | .error _ => 0

/-- The body of the inner (target) loop of `_get_cross_evaluations` for the
evaluator `e`. -/
def innerStep (evalCall : String → String → Except Unit String) (e : String)
    (evals : List (String × List (String × ℚ))) (tp : String × RespData) :
    List (String × List (String × ℚ)) :=
  if e ≠ tp.1 then addEval evals e tp.1 (crossScore evalCall e tp.2.response)
  else evals

/-- `_get_cross_evaluations(responses, round_type)`.  `evalCall e p` stands
for `await self.llms[e].generate_response(p)`; it is a parameter because
the agents are external.  (In the source `self.llms` is a *list* indexed
with the evaluator's *name*, so the call site in fact always raises
`TypeError`; that run-time behavior is the instance
`evalCall = fun _ _ => .error ()`, and any raise is caught by the
`except:` that records a `0.0` score.) -/
def getCrossEvaluations (evalCall : String → String → Except Unit String)
    (responses : List (String × RespData)) : List (String × List (String × ℚ)) :=
  responses.foldl (fun evals ep =>
    responses.foldl (innerStep evalCall ep.1) evals) []

/-! ### Winner selection -/

/-- `avg_scores[target]` in `_select_best_implementation`: the mean of the
scores the target *received* from the evaluators whose dict mentions it. -/
def avgReceivedScore (evals : List (String × List (String × ℚ))) (t : String) : ℚ :=
  let scores := evals.filterMap (fun ed => dictGet? ed.2 t)
  if scores.isEmpty then 0 else scores.sum / (scores.length : ℚ)

/-- `_select_best_implementation`: the response of the target with the highest
average received score (Python `max` keeps the first maximum). -/
def selectBestImplementation (responses : List (String × RespData))
    (evals : List (String × List (String × ℚ))) : Except PyErr String :=
  match responses with
  | [] => .error .valueErr
  | (n0, _) :: rest =>
    let best := rest.foldl (fun b rp =>
      let s := avgReceivedScore evals rp.1
      if b.2 < s then (rp.1, s) else b) (n0, avgReceivedScore evals n0)
    match dictGet? responses best.1 with
    | some d => .ok d.response
    | none => .error .keyErr

/-- The mean of the scores an evaluator *gave out* (`sum(x[1].values()) /
len(x[1])` in the non-code branch of `discuss`). -/
def evaluatorAvgGiven (d : List (String × ℚ)) : ℚ :=
  (d.map Prod.snd).sum / (d.length : ℚ)

/-- The non-code winner selection inlined in `discuss` (lines 541-544):
`max(evaluations.items(), key=lambda x: sum(x[1].values())/len(x[1]))[0]` —
note it maximizes over *evaluators* by the scores they gave.
`max` of an empty dict raises `ValueError`. -/
def nonCodeSelect (evals : List (String × List (String × ℚ))) :
    Except PyErr String :=
  match evals with
  | [] => .error .valueErr
  | (n0, d0) :: rest =>
    .ok (rest.foldl (fun b ed =>
      let s := evaluatorAvgGiven ed.2
      if b.2 < s then (ed.1, s) else b) (n0, evaluatorAvgGiven d0)).1

/-! ### `_format_round_prompt` -/

/-- The keyword arguments of `round_guidance.format(...)`.  The four note
lists are always empty (see `Metrics`), so their `", ".join` is `""`. -/
def metricsFormatArgs (env : Env) (m : Metrics) : List (String × String) :=
  [("similarity", env.fmt2 m.similarity),
   ("consensus_threshold", env.fmt2 consensusThreshold),
   ("avg_confidence", env.fmt2 m.avg_confidence),
   ("key_differences", ""), ("alignment_areas", ""),
   ("remaining_issues", ""), ("key_alignments", "")]

/-- `"```" in str(previous_responses)`: a fence substring survives `str()` of
a dict exactly when some key or value contains one. -/
def prevHasTicks (prev : List (String × String)) : Bool :=
  prev.any (fun p => containsStr p.1 "```" || containsStr p.2 "```")

/-- `_format_round_prompt`.  When metrics are present the round guidance is
`.format`-ed; for RIVER and SHOWDOWN this raises `KeyError` (their templates
reference `{agreed_format}` / `{strict_format}`, which are not supplied). -/
def formatRoundPrompt (env : Env) (rt : RoundType) (prompt : String)
    (prev : List (String × String)) (cm : Option Metrics) : Except PyErr String :=
  let base := "Original prompt: " ++ prompt ++ "\n\n"
  let base := if !prev.isEmpty then
      base ++ "Previous responses:\n" ++
        String.join (prev.map (fun p => "\n" ++ p.1 ++ ": " ++ p.2 ++ "\n"))
    else base
  match (match cm with
         | none => Except.ok (roundGuidance rt)
         | some m => pyFormat (roundGuidance rt) (metricsFormatArgs env m)) with
  | .error e => .error e
  | .ok guidance =>
    let full := base ++ "\n" ++ confidenceGuidance ++ "\n" ++ "\n" ++ guidance ++ "\n"
    let full := if prevHasTicks prev then
        full ++ "\n" ++ codeConsensusGuidance ++ "\n"
      else full
    .ok (full ++ "\n" ++ responseFormat rt ++ "\n")

/-! ### `discuss` -/

/-- The `Discussion` database row, restricted to the fields the engine
writes (`consensus_reached`, `final_consensus`, `completed_at`; the latter
modelled as a flag). -/
structure Discussion where
  prompt : String
  consensus_reached : Bool := false
  final_consensus : Option String := none
  completed : Bool := false
deriving DecidableEq, Repr

inductive Status
  | consensus_reached | no_consensus
deriving DecidableEq, Repr

/-- The result dict returned by `discuss`. -/
structure DiscussResult where
  status : Status
  consensus : Option String := none
  reason : Option String := none
  individual_responses : List (String × String)
  metrics : Option Metrics := none
  evaluations : Option (List (String × List (String × ℚ))) := none
deriving DecidableEq, Repr

/-- An external agent: `name` plus `generate_response` (an `.error` models a
raising call, which `discuss` catches per agent). -/
structure LLM where
  name : String
  gen : String → Except Unit String

/-- One stage's query loop (`for llm in self.llms: try: …`): build the
prompt, call the agent, extract the confidence; any exception in the body —
including the `KeyError` out of `_format_round_prompt` — excludes the agent
from the stage.  Returns `(round_responses, current_responses)`. -/
def roundQuery (env : Env) (llms : List LLM) (rt : RoundType) (prompt : String)
    (prev : List (String × String)) (cm : Option Metrics) :
    List (String × String) × List (String × RespData) :=
  llms.foldl (fun acc llm =>
    match formatRoundPrompt env rt prompt prev cm with
    | .error _ => acc
    | .ok fp =>
      match llm.gen fp with
      | .error _ => acc
      | .ok resp =>
        let conf := extractConfidence resp
        (dictUpd acc.1 llm.name resp,
         dictUpd acc.2 llm.name { response := resp, confidence := conf })) ([], [])

/-- The body of `if consensus_result['consensus_reached']:` on the last round
(engine lines 511-563).  `validate` stands for
`_validate_code_implementation` (external: pylint + exec; in the source it
can in fact never return `True`, because the `tempfile` module it uses is
never imported, so the `NameError` is caught and `False` returned).
Returns `some (result, discussion)` when `discuss` returns from inside the
block, and `none` when control falls through: after a *successful*
validation of a code winner nothing more happens inside the branch — the
consensus return sits in the non-code `else:` — so the loop just continues. -/
def resolveFinalRound (validate : String → Bool)
    (evalCall : String → String → Except Unit String) (disc : Discussion)
    (roundResponses : List (String × String)) (current : List (String × RespData))
    (m : Metrics) : Except PyErr (Option (DiscussResult × Discussion)) :=
  let hasCode := current.any (fun p => containsStr p.2.response "```")
  let evals := getCrossEvaluations evalCall current
  if hasCode then
    match selectBestImplementation current evals with
    | .error e => .error e
    | .ok consensus =>
      if !validate consensus then
        let res : DiscussResult :=
          { status := .no_consensus,
            reason := some "Code validation failed",
            individual_responses := roundResponses,
            metrics := some m }
        .ok (some (res, disc))
      else .ok none
  else
    match nonCodeSelect evals with
    | .error e => .error e
    | .ok cname =>
      match dictGet? current cname with
      | none => .error .keyErr
      | some d =>
        let consensus := d.response
        let disc' : Discussion :=
          { disc with
            consensus_reached := true,
            final_consensus := some consensus,
            completed := true }
        let res : DiscussResult :=
          { status := .consensus_reached,
            consensus := some consensus,
            individual_responses := roundResponses,
            metrics := some m,
            evaluations := some evals }
        .ok (some (res, disc'))

/-- The round loop of `discuss`.  State: remaining rounds, the discussion
row, `previous_responses`, `consensus_metrics`, `all_responses`.  An
uncaught exception reaches the outer `except:`, which stamps
`completed_at` and re-raises to the caller. -/
def discussLoop (env : Env) (validate : String → Bool)
    (evalCall : String → String → Except Unit String) (llms : List LLM)
    (prompt : String) :
    List RoundType → Discussion → List (String × String) → Option Metrics →
    List (String × RespData) → Discussion × Except PyErr DiscussResult
  | [], disc, _prev, cm, allResponses =>
    let res : DiscussResult :=
      { status := .no_consensus,
        individual_responses := allResponses.map (fun p => (p.1, p.2.response)),
        metrics := cm }
    ({ disc with completed := true }, .ok res)
  | rt :: rest, disc, prev, cm, _all =>
    let rq := roundQuery env llms rt prompt prev cm
    match checkConsensus env rt rq.2 with
    | .error e => ({ disc with completed := true }, .error e)
    | .ok cres =>
      if cres.consensus_reached && decide (rt = lastRound) then
        match resolveFinalRound validate evalCall disc rq.1 rq.2 cres.metrics with
        | .error e => ({ disc with completed := true }, .error e)
        | .ok (some pr) => (pr.2, .ok pr.1)
        | .ok none =>
          discussLoop env validate evalCall llms prompt rest disc rq.1
            (some cres.metrics) rq.2
      else
        discussLoop env validate evalCall llms prompt rest disc rq.1
          (some cres.metrics) rq.2

/-- `ConsensusEngine.discuss(prompt)`: create the discussion row and run the
fixed round sequence.  The pair is the final state of the discussion row
together with either the returned result dict or the exception the caller
sees. -/
def discuss (env : Env) (validate : String → Bool)
    (evalCall : String → String → Except Unit String) (llms : List LLM)
    (prompt : String) : Discussion × Except PyErr DiscussResult :=
  discussLoop env validate evalCall llms prompt roundSequence
    { prompt := prompt } [] none []

/-! ### Concrete instances of the external parameters, for witnesses

`cosW` is a computable stand-in for cosine similarity that satisfies the
only property the theorems assume of the real function
(`cos u u = 1` for `u ≠ 0`); `idfW` a positive stand-in for the idf
weights. -/

def cosW : List ℚ → List ℚ → ℚ :=
  fun u v => if u = v ∧ ∃ x ∈ u, x ≠ 0 then 1 else 0

theorem cosW_self (u : List ℚ) (h : ∃ x ∈ u, x ≠ 0) : cosW u u = 1 := by
  unfold cosW
  rw [if_pos ⟨rfl, h⟩]

def idfW : Nat → Nat → ℚ := fun _ _ => 1

theorem idfW_pos (n df : Nat) : 0 < idfW n df := by norm_num [idfW]

def envW : Env := { cos := cosW, idf := idfW, stopWords := [], fmt2 := fun _ => "" }

/-- A cooperative agent that always answers with an identical high-confidence
code response. -/
def codeResp : String := "CONFIDENCE: 0.9\n```python\nx = 1\n```"

def llmCodeA : LLM := { name := "A", gen := fun _ => .ok codeResp }

def llmCodeB : LLM := { name := "B", gen := fun _ => .ok codeResp }

/-- A cooperative agent that always answers with an identical high-confidence
prose response. -/
def proseResp : String := "IMPLEMENTATION: the answer\nCONFIDENCE: 0.9"

def llmProseA : LLM := { name := "P", gen := fun _ => .ok proseResp }

def llmProseB : LLM := { name := "Q", gen := fun _ => .ok proseResp }

/-- An agent whose `generate_response` always raises. -/
def failingLLM : LLM := { name := "X", gen := fun _ => .error () }

/-- An evaluator call that always succeeds with a fixed score. -/
def evalOk : String → String → Except Unit String :=
  fun _ _ => .ok "EVALUATION_SCORE: 0.8"

/-! ### Derived views of `_check_consensus`, for the proofs -/

/-- The stage similarity pipeline of `_check_consensus` as a standalone
function of the response texts (base score, then the conditional code
blend, then the conditional evidence blend).  `checkConsensus_spec`
certifies it against `checkConsensus`. -/
def simFinal (env : Env) (texts : List String) : ℚ :=
  let baseSim := calcSimilarity env texts
  let s1 :=
    if texts.any (fun t => containsStr t "```") then
      let cbs := texts.map extractCodeBlocks
      if cbs.all (fun l => !l.isEmpty) then
        baseSim * (3/10 : ℚ) + codeSimilarity cbs * (7/10 : ℚ)
      else baseSim
    else baseSim
  if texts.any (fun t => containsStr t "EVIDENCE:") then
    s1 * (7/10 : ℚ) + evidenceSimilarity texts * (3/10 : ℚ)
  else s1

def avgOf (l : List ℚ) : ℚ := l.sum / (l.length : ℚ)

theorem checkConsensus_spec (env : Env) (rt : RoundType)
    (responses : List (String × RespData)) (h : responses ≠ []) :
    checkConsensus env rt responses =
      .ok { consensus_reached :=
              decide (consensusThreshold ≤
                simFinal env (responses.map (fun r => r.2.response))) &&
              decide (requiredConfidence rt ≤
                avgOf (responses.map (fun r => r.2.confidence))),
            metrics := { similarity :=
                           simFinal env (responses.map (fun r => r.2.response)),
                         avg_confidence :=
                           avgOf (responses.map (fun r => r.2.confidence)) } } := by
  cases responses with
  | nil => exact absurd rfl h
  | cons a l => rfl

theorem codeSimilarity_single (bs : List String) : codeSimilarity [bs] = 0 := by
  unfold codeSimilarity codePairSims listPairs
  split <;> simp [listPairs]

theorem evidenceSimilarity_single (t : String) : evidenceSimilarity [t] = 0 := by
  simp [evidenceSimilarity, listPairs]

theorem calcSimilarity_single (env : Env) (t : String) :
    calcSimilarity env [t] = 0 := rfl

theorem simFinal_single (env : Env) (t : String) : simFinal env [t] = 0 := by
  simp [simFinal, calcSimilarity_single, codeSimilarity_single,
    evidenceSimilarity_single]

/-! ### The claims -/

/-- Claim C3: for every stage type and every non-empty set of surviving
responses, `_check_consensus` succeeds and declares the stage passed if and
only if the computed similarity is at least the single global similarity
threshold — the constant `0.70` from `CONSENSUS_SETTINGS`, identical for
every stage — and the average extracted confidence is at least the stage
type's required confidence.  The average is the plain mean of the stored
per-response confidences. -/
theorem engine_c3_decision_rule (env : Env) (rt : RoundType)
    (responses : List (String × RespData)) (h : responses ≠ []) :
    ∃ r, checkConsensus env rt responses = .ok r ∧
      (r.consensus_reached = true ↔
        consensusThreshold ≤ r.metrics.similarity ∧
        requiredConfidence rt ≤ r.metrics.avg_confidence) ∧
      consensusThreshold = 7/10 ∧
      r.metrics.avg_confidence =
        (responses.map (fun p => p.2.confidence)).sum / (responses.length : ℚ) := by
  refine ⟨_, checkConsensus_spec env rt responses h, ?_, rfl, ?_⟩
  · simp [Bool.and_eq_true, decide_eq_true_eq]
  · simp [avgOf]

/-- Witness for C3 at a concrete stage: one SHOWDOWN response with
confidence 1. -/
theorem engine_c3_decision_rule_witness :
    (([("A", { response := "ok", confidence := 1 })] :
        List (String × RespData)) ≠ []) ∧
    (∃ r, checkConsensus envW .SHOWDOWN
        [("A", { response := "ok", confidence := 1 })] = .ok r ∧
      (r.consensus_reached = true ↔
        consensusThreshold ≤ r.metrics.similarity ∧
        requiredConfidence .SHOWDOWN ≤ r.metrics.avg_confidence) ∧
      consensusThreshold = 7/10 ∧
      r.metrics.avg_confidence =
        (([("A", { response := "ok", confidence := 1 })] :
            List (String × RespData)).map (fun p => p.2.confidence)).sum /
          ((([("A", { response := "ok", confidence := 1 })] :
            List (String × RespData)).length : ℚ))) :=
  ⟨by decide, engine_c3_decision_rule envW .SHOWDOWN _ (by decide)⟩

/-- Claim C5 counterexample: the claim says a stage with exactly one
surviving response has similarity `1.0` and can never fail on similarity
grounds.  On the code, a lone SHOWDOWN response with confidence `0.9`
(comfortably above the required `0.75`) yields similarity `0`, and the
stage fails. -/
theorem engine_c5_single_response_counterexample :
    checkConsensus envW .SHOWDOWN
        [("A", { response := "IMPLEMENTATION: the answer\nCONFIDENCE: 0.9",
                 confidence := 9/10 })] =
      .ok { consensus_reached := false,
            metrics := { similarity := 0, avg_confidence := 9/10 } } ∧
    (0 : ℚ) ≠ 1 := by
  constructor
  · decide
  · norm_num

/-- Claim C5 as amended: `_calculate_similarity` returns `0.0` (not `1.0`)
for fewer than two responses, so a stage with exactly one surviving
response always has similarity `0`, always fails the `0.70` similarity
test, and therefore always fails — regardless of its confidence. -/
theorem engine_c5_single_response_amended (env : Env) (rt : RoundType)
    (nm : String) (d : RespData) :
    ∃ r, checkConsensus env rt [(nm, d)] = .ok r ∧
      r.metrics.similarity = 0 ∧ r.consensus_reached = false := by
  refine ⟨_, checkConsensus_spec env rt [(nm, d)] (by simp), ?_, ?_⟩
  · simp [simFinal_single]
  · simp only [List.map_cons, List.map_nil, simFinal_single]
    simp [consensusThreshold]

/-- Claim C7: confidence extraction.  `"CONFIDENCE: 0.85"` yields `0.85`
(also with a lower-case label), `"CONFIDENCE: 85"` is read as a percentage
and yields `0.85`, `"CONFIDENCE: 150"` is clamped to `1.0`, text without a
parseable label yields `0.0`, and every extracted value lies in `[0, 1]`. -/
theorem engine_c7_confidence_extraction :
    extractConfidence "CONFIDENCE: 0.85" = 17/20 ∧
    extractConfidence "confidence: 0.85" = 17/20 ∧
    extractConfidence "CONFIDENCE: 85" = 17/20 ∧
    extractConfidence "CONFIDENCE: 150" = 1 ∧
    extractConfidence "No score is given anywhere in this text." = 0 ∧
    (∀ t : String, 0 ≤ extractConfidence t ∧ extractConfidence t ≤ 1) := by
  refine ⟨by decide, by decide, by decide, by decide, by decide, fun t => ?_⟩
  unfold extractConfidence
  cases findLabeledNum "CONFIDENCE:" t with
  | none => norm_num
  | some c =>
    unfold clamp01
    constructor
    · exact le_min (le_max_right _ _) (by norm_num)
    · exact min_le_right _ _

/-- The state reached at the end of a SHOWDOWN round in which both agents
returned `codeResp`: the per-round response dicts and the stage metrics. -/
def rrC : List (String × String) := [("A", codeResp), ("B", codeResp)]

def curC : List (String × RespData) :=
  [("A", { response := codeResp, confidence := 9/10 }),
   ("B", { response := codeResp, confidence := 9/10 })]

def mC : Metrics := { similarity := 1, avg_confidence := 9/10 }

/-- Claim C1: the claim says that whenever the final stage passes the
decision rule, `discuss` marks the discussion consensus-reached and returns
`consensus_reached` with the cross-evaluated winner, with or without code
in the responses.  The code cannot deliver this.

First two conjuncts: with two ideally cooperative agents (identical
high-confidence answers, with and without fenced code), `discuss` never
returns at all — at the RIVER round the prompt template references
`{agreed_format}`, which `_format_round_prompt` does not supply to
`str.format`, so every agent raises `KeyError` and is excluded, and the
empty round makes `_check_consensus` divide by zero; the error is re-raised
to the caller, with the discussion row never marked consensus-reached.

Third conjunct: even at a passing final stage with code responses whose
selected winner passes validation (`validate = fun _ => true`), the block
at engine lines 511-563 falls through — the consensus return sits in the
non-code `else:` branch — so no consensus result is produced there
either. -/
theorem engine_c1_final_consensus_unreachable :
    discuss envW (fun _ => true) evalOk [llmCodeA, llmCodeB] "q" =
      ({ prompt := "q", consensus_reached := false, final_consensus := none,
         completed := true }, .error .zeroDiv) ∧
    discuss envW (fun _ => true) evalOk [llmProseA, llmProseB] "q" =
      ({ prompt := "q", consensus_reached := false, final_consensus := none,
         completed := true }, .error .zeroDiv) ∧
    resolveFinalRound (fun _ => true) evalOk { prompt := "q" } rrC curC mC =
      .ok none := by
  refine ⟨by decide, by decide, by decide⟩

/-- Claim C4: the claim says a stage in which every agent call fails makes
the discussion complete with a `no_consensus` result without raising.  On
the code, `_check_consensus` divides by `len(confidences) = 0` and the
resulting `ZeroDivisionError` is re-raised to the caller (for any
environment, validator, evaluator and prompt). -/
theorem engine_c4_all_agents_fail_raises :
    ∀ (env : Env) (validate : String → Bool)
      (evalCall : String → String → Except Unit String) (prompt : String),
      (discuss env validate evalCall [failingLLM] prompt).2 = .error .zeroDiv :=
  fun _ _ _ _ => rfl

/-- The cross-evaluation table used to separate the two selection rules:
evaluator `A` gives `B` the score `0.2`; evaluator `B` gives `A` `0.9`. -/
def evalsC2 : List (String × List (String × ℚ)) :=
  [("A", [("B", 1/5)]), ("B", [("A", 9/10)])]

def responsesC2 : List (String × RespData) :=
  [("A", { response := "Apple answer", confidence := 9/10 }),
   ("B", { response := "Banana answer", confidence := 9/10 })]

/-- Claim C2: the claim says both selection paths return the response of
the agent with the highest average *received* cross-evaluation score.  With
the table `evalsC2`, agent `A` receives the higher average (`0.9 > 0.2`),
and `_select_best_implementation` (the code path) indeed returns `A`'s
response; but the inlined non-code selection maximizes over *evaluators* by
the average score they *gave out*, so it selects `B` — whose response is
not the received-average winner. -/
theorem engine_c2_noncode_winner_bug :
    avgReceivedScore evalsC2 "A" = 9/10 ∧
    avgReceivedScore evalsC2 "B" = 1/5 ∧
    selectBestImplementation responsesC2 evalsC2 = .ok "Apple answer" ∧
    nonCodeSelect evalsC2 = .ok "B" ∧
    (dictGet? responsesC2 "B").map RespData.response = some "Banana answer" ∧
    ("Banana answer" : String) ≠ "Apple answer" := by
  refine ⟨by decide, by decide, by decide, by decide, by decide, by decide⟩

/-- Claim C6 counterexample: the claim says `similarity({x: A, y: A}) = 1.0`
for *every* text `A`.  For `A = "hello"` — no upper-case labelled section —
the section loop collects nothing and `_calculate_similarity` returns
`0.0`. -/
theorem engine_c6_identical_text_counterexample :
    calcSimilarity envW ["hello", "hello"] = 0 ∧ (0 : ℚ) ≠ 1 := by
  refine ⟨by decide, by norm_num⟩

/-- Two final-stage responses with identical labelled section text; only the
first contains a fenced code block. -/
def c8t1 : String := "LABEL: same words here\n```python\nx = 1\n```"

def c8t2 : String := "LABEL: same words here"

/-- Claim C8 counterexample: the claim says that whenever *any* response
contains a fenced code block, the code similarity is blended in as
`0.3*base + 0.7*code`.  Here the first response has a block and the second
has none, so `all(code_blocks)` is false and no blend happens: the stage
similarity stays at the base value `1`, while the claimed blend would give
`0.3*1 + 0.7*0 = 0.3`. -/
theorem engine_c8_partial_code_counterexample :
    containsStr c8t1 "```" = true ∧
    extractCodeBlocks c8t2 = [] ∧
    checkConsensus envW .SHOWDOWN
        [("A", { response := c8t1, confidence := 9/10 }),
         ("B", { response := c8t2, confidence := 9/10 })] =
      .ok { consensus_reached := true,
            metrics := { similarity := 1, avg_confidence := 9/10 } } ∧
    calcSimilarity envW [c8t1, c8t2] = 1 ∧
    codeSimilarity ([c8t1, c8t2].map extractCodeBlocks) = 0 ∧
    (1 : ℚ) ≠ 1 * (3/10 : ℚ) + 0 * (7/10 : ℚ) := by
  refine ⟨by decide, by decide, by decide, by decide, by decide, by norm_num⟩

/-- Claim C8 as amended: the code blend `0.3*base + 0.7*code` applies
exactly when some response contains a fence *and* every response has at
least one extractable fenced block; the evidence blend
`0.7*current + 0.3*evidence` applies exactly when some response contains
`EVIDENCE:`; and each compared pair of code blocks is scored
`0.5*sequence + 0.3*signatures + 0.2*identifier-Jaccard`. -/
theorem engine_c8_blend_amended (env : Env) (rt : RoundType)
    (responses : List (String × RespData)) (h : responses ≠ []) :
    (∃ r, checkConsensus env rt responses = .ok r ∧
      r.metrics.similarity =
        (let texts := responses.map (fun p => p.2.response)
         let base := calcSimilarity env texts
         let withCode :=
           if ((texts.any (fun t => containsStr t "```")) = true ∧
               ((texts.map extractCodeBlocks).all (fun l => !l.isEmpty)) = true) then
             base * (3/10 : ℚ) +
               codeSimilarity (texts.map extractCodeBlocks) * (7/10 : ℚ)
           else base
         if (texts.any (fun t => containsStr t "EVIDENCE:")) = true then
           withCode * (7/10 : ℚ) + evidenceSimilarity texts * (3/10 : ℚ)
         else withCode)) ∧
    (∀ c1 c2 : String,
      compareCode c1 c2 =
        ratioScore c1.toList c2.toList * (1/2 : ℚ) +
        ratioScore (extractSignatures c1).toList (extractSignatures c2).toList *
          (3/10 : ℚ) +
        (if ((dedupFirst (identifiersOf c1)).isEmpty &&
             (dedupFirst (identifiersOf c2)).isEmpty) = true then 0
         else jaccardQ (dedupFirst (identifiersOf c1))
                (dedupFirst (identifiersOf c2))) * (1/5 : ℚ)) := by
  constructor
  · refine ⟨_, checkConsensus_spec env rt responses h, ?_⟩
    show simFinal env (responses.map (fun p => p.2.response)) = _
    simp only [simFinal]
    generalize (responses.map (fun p => p.2.response)).any
      (fun t => containsStr t "```") = A
    generalize ((responses.map (fun p => p.2.response)).map extractCodeBlocks).all
      (fun l => !l.isEmpty) = B
    generalize (responses.map (fun p => p.2.response)).any
      (fun t => containsStr t "EVIDENCE:") = E
    generalize calcSimilarity env (responses.map (fun p => p.2.response)) = base
    generalize codeSimilarity
      ((responses.map (fun p => p.2.response)).map extractCodeBlocks) = code
    generalize evidenceSimilarity (responses.map (fun p => p.2.response)) = evid
    cases A <;> cases B <;> cases E <;> simp
  · intro c1 c2
    rfl

/-- Witness for C8 as amended, at a one-response stage containing a code
block. -/
theorem engine_c8_blend_amended_witness :
    (([("A", { response := c8t1, confidence := 9/10 })] :
        List (String × RespData)) ≠ []) ∧
    ((∃ r, checkConsensus envW .SHOWDOWN
        [("A", { response := c8t1, confidence := 9/10 })] = .ok r ∧
      r.metrics.similarity =
        (let texts := ([("A", { response := c8t1, confidence := 9/10 })] :
            List (String × RespData)).map (fun p => p.2.response)
         let base := calcSimilarity envW texts
         let withCode :=
           if ((texts.any (fun t => containsStr t "```")) = true ∧
               ((texts.map extractCodeBlocks).all (fun l => !l.isEmpty)) = true) then
             base * (3/10 : ℚ) +
               codeSimilarity (texts.map extractCodeBlocks) * (7/10 : ℚ)
           else base
         if (texts.any (fun t => containsStr t "EVIDENCE:")) = true then
           withCode * (7/10 : ℚ) + evidenceSimilarity texts * (3/10 : ℚ)
         else withCode)) ∧
    (∀ c1 c2 : String,
      compareCode c1 c2 =
        ratioScore c1.toList c2.toList * (1/2 : ℚ) +
        ratioScore (extractSignatures c1).toList (extractSignatures c2).toList *
          (3/10 : ℚ) +
        (if ((dedupFirst (identifiersOf c1)).isEmpty &&
             (dedupFirst (identifiersOf c2)).isEmpty) = true then 0
         else jaccardQ (dedupFirst (identifiersOf c1))
                (dedupFirst (identifiersOf c2))) * (1/5 : ℚ))) :=
  ⟨by decide, engine_c8_blend_amended envW .SHOWDOWN _ (by decide)⟩

/-! ### Minimum-fold lemmas for C9 -/

theorem foldl_min_le_init (l : List ℚ) (a : ℚ) : l.foldl min a ≤ a := by
  induction l generalizing a with
  | nil => exact le_refl a
  | cons x xs ih => exact le_trans (ih (min a x)) (min_le_left a x)

theorem foldl_min_le_mem (l : List ℚ) (x : ℚ) (hx : x ∈ l) :
    ∀ a : ℚ, l.foldl min a ≤ x := by
  induction l with
  | nil => cases hx
  | cons y ys ih =>
    intro a
    rcases List.mem_cons.mp hx with rfl | hmem
    · exact le_trans (foldl_min_le_init ys (min a x)) (min_le_right a x)
    · exact ih hmem (min a y)

theorem foldl_min_mem (l : List ℚ) (a : ℚ) :
    l.foldl min a = a ∨ l.foldl min a ∈ l := by
  induction l generalizing a with
  | nil => exact Or.inl rfl
  | cons x xs ih =>
    rcases ih (min a x) with heq | hmem
    · rcases min_choice a x with h | h
      · exact Or.inl (by rw [List.foldl_cons, heq, h])
      · exact Or.inr (by rw [List.foldl_cons, heq, h]; exact List.mem_cons_self _ _)
    · exact Or.inr (List.mem_cons_of_mem _ hmem)

/-- Claim C9: the aggregate code similarity is `0.0` when there are no
block lists or some response's block list is empty; otherwise (at least
two lists, all non-empty) it is the minimum of the pairwise compare
scores — it is one of them and a lower bound of all of them. -/
theorem engine_c9_code_similarity_min (blocks : List (List String)) :
    ((blocks = [] ∨ ∃ b ∈ blocks, b = []) → codeSimilarity blocks = 0) ∧
    (2 ≤ blocks.length → (∀ b ∈ blocks, b ≠ []) →
      codeSimilarity blocks ∈ codePairSims blocks ∧
      ∀ s ∈ codePairSims blocks, codeSimilarity blocks ≤ s) := by
  constructor
  · rintro (rfl | ⟨b, hb, rfl⟩)
    · rfl
    · unfold codeSimilarity
      have : blocks.any List.isEmpty = true :=
        List.any_eq_true.mpr ⟨[], hb, rfl⟩
      simp [this]
  · intro hlen hne
    have hcp : ∃ s rest, codePairSims blocks = s :: rest := by
      match blocks, hlen with
      | b1 :: b2 :: bs, _ =>
        have h1 : b1 ≠ [] := hne b1 (List.mem_cons_self _ _)
        have h2 : b2 ≠ [] := hne b2 (List.mem_cons_of_mem _ (List.mem_cons_self _ _))
        match b1, h1, b2, h2 with
        | c1 :: r1, _, c2 :: r2, _ =>
          exact ⟨compareCode c1 c2, _, rfl⟩
    have hguard1 : blocks.isEmpty = false := by
      cases blocks with
      | nil => simp at hlen
      | cons a l => rfl
    have hguard2 : blocks.any List.isEmpty = false := by
      rw [List.any_eq_false]
      intro b hb
      simpa [List.isEmpty_iff] using hne b hb
    obtain ⟨s, rest, hsr⟩ := hcp
    have hval : codeSimilarity blocks = rest.foldl min s := by
      unfold codeSimilarity
      rw [hguard1, hguard2, hsr]
      rfl
    constructor
    · rw [hval, hsr]
      rcases foldl_min_mem rest s with h | h
      · rw [h]; exact List.mem_cons_self _ _
      · exact List.mem_cons_of_mem _ h
    · intro x hx
      rw [hsr] at hx
      rcases List.mem_cons.mp hx with rfl | hmem
      · rw [hval]; exact foldl_min_le_init rest x
      · rw [hval]; exact foldl_min_le_mem rest x hmem s

/-- Witness for C9 at two concrete singleton block lists. -/
theorem engine_c9_code_similarity_min_witness :
    (2 ≤ ([["x = 1"], ["y = 2"]] : List (List String)).length) ∧
    (∀ b ∈ ([["x = 1"], ["y = 2"]] : List (List String)), b ≠ []) ∧
    (codeSimilarity [["x = 1"], ["y = 2"]] ∈ codePairSims [["x = 1"], ["y = 2"]] ∧
      ∀ s ∈ codePairSims [["x = 1"], ["y = 2"]],
        codeSimilarity [["x = 1"], ["y = 2"]] ≤ s) :=
  ⟨by decide, by decide,
    (engine_c9_code_similarity_min [["x = 1"], ["y = 2"]]).2 (by decide) (by decide)⟩

/-! ### Dictionary lemmas, and the shape of `_get_cross_evaluations` -/

theorem nodup_fst_cons {β : Type} (p : String × β) (l : List (String × β))
    (h : (List.map Prod.fst (p :: l)).Nodup) :
    p.1 ∉ l.map Prod.fst ∧ (l.map Prod.fst).Nodup := by
  rw [List.map_cons] at h
  exact List.nodup_cons.mp h

theorem dictGet?_eq_none_iff {α : Type} (d : List (String × α)) (k : String) :
    dictGet? d k = none ↔ k ∉ dictKeys d := by
  induction d with
  | nil => simp [dictGet?, dictKeys]
  | cons p rest ih =>
    by_cases h : p.1 = k
    · simp [dictGet?, dictKeys, h]
    · simp [dictGet?, dictKeys, h, ih, Ne.symm h]

theorem dictGet?_append_self {α : Type} (d0 : List (String × α)) (k : String)
    (v : α) (h : k ∉ dictKeys d0) : dictGet? (d0 ++ [(k, v)]) k = some v := by
  induction d0 with
  | nil => simp [dictGet?]
  | cons p rest ih =>
    have hk : p.1 ≠ k := by
      intro he; exact h (by simp [dictKeys, he])
    have hrest : k ∉ dictKeys rest := fun hm => h (by simp [dictKeys] at hm ⊢; tauto)
    simp [dictGet?, hk, ih hrest]

theorem dictUpd_append_self {α : Type} (d0 : List (String × α)) (k : String)
    (v v' : α) (h : k ∉ dictKeys d0) :
    dictUpd (d0 ++ [(k, v)]) k v' = d0 ++ [(k, v')] := by
  induction d0 with
  | nil => simp [dictUpd]
  | cons p rest ih =>
    have hk : p.1 ≠ k := by
      intro he; exact h (by simp [dictKeys, he])
    have hrest : k ∉ dictKeys rest := fun hm => h (by simp [dictKeys] at hm ⊢; tauto)
    simp [dictUpd, hk, ih hrest]

theorem dictUpd_fresh {α : Type} (d : List (String × α)) (k : String) (v : α)
    (h : k ∉ dictKeys d) : dictUpd d k v = d ++ [(k, v)] := by
  induction d with
  | nil => simp [dictUpd]
  | cons p rest ih =>
    have hk : p.1 ≠ k := by
      intro he; exact h (by simp [dictKeys, he])
    have hrest : k ∉ dictKeys rest := fun hm => h (by simp [dictKeys] at hm ⊢; tauto)
    simp [dictUpd, hk, ih hrest]

theorem dictGet?_of_mem_nodup {α : Type} (d : List (String × α)) (k : String)
    (v : α) (hm : (k, v) ∈ d) (hn : (d.map Prod.fst).Nodup) :
    dictGet? d k = some v := by
  induction d with
  | nil => cases hm
  | cons p rest ih =>
    rcases List.mem_cons.mp hm with heq | hmem
    · rw [← heq]
      simp [dictGet?]
    · have hn1 := nodup_fst_cons p rest hn
      have hk : p.1 ≠ k := fun he =>
        hn1.1 (he ▸ List.mem_map_of_mem Prod.fst hmem)
      simpa [dictGet?, hk] using ih hmem hn1.2

/-- The per-evaluator dict `_get_cross_evaluations` ends up storing for
evaluator `e`: one entry per distinct target in order, skipping `e`
itself. -/
def targetsOf (evalCall : String → String → Except Unit String) (e : String)
    (responses : List (String × RespData)) : List (String × ℚ) :=
  responses.filterMap (fun tp =>
    if e ≠ tp.1 then some (tp.1, crossScore evalCall e tp.2.response) else none)

theorem addEval_existing
    (evals0 : List (String × List (String × ℚ))) (e : String)
    (d : List (String × ℚ)) (t : String) (s : ℚ)
    (he : e ∉ dictKeys evals0) (ht : t ∉ dictKeys d) :
    addEval (evals0 ++ [(e, d)]) e t s = evals0 ++ [(e, d ++ [(t, s)])] := by
  unfold addEval
  rw [dictGet?_append_self evals0 e d he]
  show dictUpd (evals0 ++ [(e, d)]) e (dictUpd d t s) = _
  rw [dictUpd_fresh d t s ht, dictUpd_append_self evals0 e d _ he]

theorem innerFold_build (evalCall : String → String → Except Unit String)
    (e : String) (ts : List (String × RespData)) :
    ∀ (evals0 : List (String × List (String × ℚ))) (d : List (String × ℚ)),
      e ∉ dictKeys evals0 →
      (∀ tp ∈ ts, tp.1 ∉ dictKeys d) →
      (ts.map Prod.fst).Nodup →
      ts.foldl (innerStep evalCall e) (evals0 ++ [(e, d)]) =
        evals0 ++ [(e, d ++ targetsOf evalCall e ts)] := by
  induction ts with
  | nil => intro evals0 d _ _ _; simp [targetsOf]
  | cons tp ts' ih =>
    intro evals0 d he hd hn
    rw [List.foldl_cons]
    by_cases het : e = tp.1
    · have hstep : innerStep evalCall e (evals0 ++ [(e, d)]) tp =
          evals0 ++ [(e, d)] := by
        simp [innerStep, het]
      rw [hstep, ih evals0 d he (fun q hq => hd q (List.mem_cons_of_mem _ hq))
        (nodup_fst_cons tp ts' hn).2]
      simp [targetsOf, het]
    · have hstep : innerStep evalCall e (evals0 ++ [(e, d)]) tp =
          evals0 ++ [(e, d ++ [(tp.1, crossScore evalCall e tp.2.response)])] := by
        simp only [innerStep, if_pos het]
        exact addEval_existing evals0 e d tp.1 _ he
          (hd tp (List.mem_cons_self _ _))
      rw [hstep]
      have hd' : ∀ q ∈ ts', q.1 ∉ dictKeys
          (d ++ [(tp.1, crossScore evalCall e tp.2.response)]) := by
        intro q hq hmem
        simp only [dictKeys, List.map_append, List.map_cons, List.map_nil,
          List.mem_append, List.mem_singleton] at hmem
        rcases hmem with hmem | hmem
        · exact hd q (List.mem_cons_of_mem _ hq) hmem
        · have : tp.1 ∈ ts'.map Prod.fst := by
            rw [← hmem]; exact List.mem_map_of_mem Prod.fst hq
          exact (nodup_fst_cons tp ts' hn).1 this
      rw [ih evals0 _ he hd' (nodup_fst_cons tp ts' hn).2]
      simp [targetsOf, het, List.append_assoc]

theorem innerFold_fresh (evalCall : String → String → Except Unit String)
    (e : String) (ts : List (String × RespData)) :
    ∀ (evals0 : List (String × List (String × ℚ))),
      e ∉ dictKeys evals0 →
      (ts.map Prod.fst).Nodup →
      (∃ tp ∈ ts, e ≠ tp.1) →
      ts.foldl (innerStep evalCall e) evals0 =
        evals0 ++ [(e, targetsOf evalCall e ts)] := by
  induction ts with
  | nil => rintro evals0 _ _ ⟨tp, htp, _⟩; cases htp
  | cons tp ts' ih =>
    intro evals0 he hn hex
    rw [List.foldl_cons]
    by_cases het : e = tp.1
    · have hstep : innerStep evalCall e evals0 tp = evals0 := by
        simp [innerStep, het]
      have hex' : ∃ q ∈ ts', e ≠ q.1 := by
        rcases hex with ⟨q, hq, hne⟩
        rcases List.mem_cons.mp hq with rfl | hq'
        · exact absurd het hne
        · exact ⟨q, hq', hne⟩
      rw [hstep, ih evals0 he (nodup_fst_cons tp ts' hn).2 hex']
      simp [targetsOf, het]
    · have hstep : innerStep evalCall e evals0 tp =
          evals0 ++ [(e, [(tp.1, crossScore evalCall e tp.2.response)])] := by
        simp only [innerStep, if_pos het]
        unfold addEval
        rw [(dictGet?_eq_none_iff evals0 e).mpr he]
      rw [hstep]
      have hd' : ∀ q ∈ ts', q.1 ∉ dictKeys
          [(tp.1, crossScore evalCall e tp.2.response)] := by
        intro q hq hmem
        simp only [dictKeys, List.map_cons, List.map_nil,
          List.mem_singleton] at hmem
        have : tp.1 ∈ ts'.map Prod.fst := by
          rw [← hmem]; exact List.mem_map_of_mem Prod.fst hq
        exact (nodup_fst_cons tp ts' hn).1 this
      rw [innerFold_build evalCall e ts' evals0 _ he hd'
        (nodup_fst_cons tp ts' hn).2]
      simp [targetsOf, het]

theorem getCross_shape (evalCall : String → String → Except Unit String)
    (responses : List (String × RespData))
    (hn : (responses.map Prod.fst).Nodup)
    (hex : ∀ ep ∈ responses, ∃ tp ∈ responses, ep.1 ≠ tp.1) :
    getCrossEvaluations evalCall responses =
      responses.map (fun ep => (ep.1, targetsOf evalCall ep.1 responses)) := by
  have aux : ∀ (rs : List (String × RespData))
      (acc : List (String × List (String × ℚ))),
      (∀ ep ∈ rs, ep.1 ∉ dictKeys acc) →
      (rs.map Prod.fst).Nodup →
      (∀ ep ∈ rs, ∃ tp ∈ responses, ep.1 ≠ tp.1) →
      rs.foldl (fun evals ep => responses.foldl (innerStep evalCall ep.1) evals) acc =
        acc ++ rs.map (fun ep => (ep.1, targetsOf evalCall ep.1 responses)) := by
    intro rs
    induction rs with
    | nil => intro acc _ _ _; simp
    | cons ep rs' ih =>
      intro acc hacc hnod hexx
      rw [List.foldl_cons,
        innerFold_fresh evalCall ep.1 responses acc
          (hacc ep (List.mem_cons_self _ _)) hn
          (hexx ep (List.mem_cons_self _ _))]
      have hk : ∀ q ∈ rs', q.1 ∉ dictKeys
          (acc ++ [(ep.1, targetsOf evalCall ep.1 responses)]) := by
        intro q hq hmem
        simp only [dictKeys, List.map_append, List.map_cons, List.map_nil,
          List.mem_append, List.mem_singleton] at hmem
        rcases hmem with hmem | hmem
        · exact hacc q (List.mem_cons_of_mem _ hq) hmem
        · have : ep.1 ∈ rs'.map Prod.fst := by
            rw [← hmem]; exact List.mem_map_of_mem Prod.fst hq
          exact (nodup_fst_cons ep rs' hnod).1 this
      rw [ih (acc ++ [(ep.1, targetsOf evalCall ep.1 responses)]) hk
        (nodup_fst_cons ep rs' hnod).2
        (fun q hq => hexx q (List.mem_cons_of_mem _ hq))]
      simp [List.append_assoc]
  unfold getCrossEvaluations
  rw [aux responses [] (by simp [dictKeys]) hn hex]
  simp

theorem targetsOf_keys_sublist (evalCall : String → String → Except Unit String)
    (e : String) (responses : List (String × RespData)) :
    List.Sublist ((targetsOf evalCall e responses).map Prod.fst)
      (responses.map Prod.fst) := by
  induction responses with
  | nil => simp [targetsOf]
  | cons tp ts ih =>
    by_cases het : e ≠ tp.1
    · simpa [targetsOf, het] using
        List.Sublist.cons₂ tp.1 (by simpa [targetsOf] using ih)
    · simpa [targetsOf, het] using
        List.Sublist.cons tp.1 (by simpa [targetsOf] using ih)

/-! ### Claim C10 -/

def evalFailC10 : String → String → Except Unit String := fun _ _ => Except.error ()

def rdA : RespData := { response := "alpha", confidence := 9/10 }

def rdB : RespData := { response := "beta", confidence := 9/10 }

def respC10 : List (String × RespData) := [("A", rdA), ("B", rdB)]

/-- C10: in `_get_cross_evaluations`, a raising scoring call records `0.0`
for the `(evaluator, target)` pair instead of excluding it.  With distinct
response names and another target for each evaluator: (1) every
evaluator's dict holds an entry for every distinct target whose value is
`crossScore`; (2) when the scoring call raises, that `crossScore` is `0`;
(3) appending such a zero entry for a target to the evaluation table can
only lower — never remove — the target's received average. -/
theorem engine_c10_cross_eval_recording
    (evalCall : String → String → Except Unit String)
    (responses : List (String × RespData))
    (hn : (responses.map Prod.fst).Nodup)
    (hex : ∀ ep ∈ responses, ∃ tp ∈ responses, ep.1 ≠ tp.1) :
    (∀ ep ∈ responses, ∀ tp ∈ responses, ep.1 ≠ tp.1 →
      ∃ d, dictGet? (getCrossEvaluations evalCall responses) ep.1 = some d ∧
        dictGet? d tp.1 = some (crossScore evalCall ep.1 tp.2.response)) ∧
    (∀ e resp u, evalCall e (evalPromptFor resp) = Except.error u →
      crossScore evalCall e resp = 0) ∧
    (∀ (evals : List (String × List (String × ℚ))) (e t : String),
      0 ≤ avgReceivedScore evals t →
      avgReceivedScore (evals ++ [(e, [(t, 0)])]) t ≤ avgReceivedScore evals t ∧
      List.filterMap (fun (ed : String × List (String × ℚ)) => dictGet? ed.2 t)
        (evals ++ [(e, [(t, 0)])]) ≠ []) := by
  refine ⟨?_, ?_, ?_⟩
  · intro ep hep tp htp hne
    rw [getCross_shape evalCall responses hn hex]
    refine ⟨targetsOf evalCall ep.1 responses, ?_, ?_⟩
    · apply dictGet?_of_mem_nodup
      · exact List.mem_map_of_mem _ hep
      · have hmm : (responses.map
            (fun ep => (ep.1, targetsOf evalCall ep.1 responses))).map Prod.fst =
            responses.map Prod.fst := by
          rw [List.map_map]
          rfl
        rw [hmm]; exact hn
    · apply dictGet?_of_mem_nodup
      · simp only [targetsOf]
        exact List.mem_filterMap.mpr ⟨tp, htp, by simp [hne]⟩
      · exact List.Nodup.sublist (targetsOf_keys_sublist evalCall ep.1 responses) hn
  · intro e resp u h
    unfold crossScore
    rw [h]
  · intro evals e t h0
    have hfm : (evals ++ [(e, [(t, (0:ℚ))])]).filterMap (fun ed => dictGet? ed.2 t) =
        evals.filterMap (fun ed => dictGet? ed.2 t) ++ [0] := by
      rw [List.filterMap_append]; simp [dictGet?]
    refine ⟨?_, ?_⟩
    · simp only [avgReceivedScore, hfm] at h0 ⊢
      generalize evals.filterMap (fun ed => dictGet? ed.2 t) = scores at h0 ⊢
      cases scores with
      | nil => simp
      | cons a l =>
        rw [if_neg (by simp)] at h0
        rw [if_neg (by simp), if_neg (by simp)]
        have hsum : ((a :: l) ++ [(0:ℚ)]).sum = (a :: l).sum := by simp
        have hlen2 : ((((a :: l) ++ [(0:ℚ)]).length : ℕ) : ℚ) =
            ((a :: l).length : ℚ) + 1 := by
          simp only [List.length_append, List.length_cons, List.length_nil]
          push_cast
          ring
        rw [hsum, hlen2]
        have hlen : (0:ℚ) < ((a :: l).length : ℚ) := by
          exact_mod_cast Nat.succ_pos l.length
        have hs : 0 ≤ (a :: l).sum := by
          by_contra hneg
          push_neg at hneg
          have hdivneg : (a :: l).sum / ((a :: l).length : ℚ) < 0 :=
            div_neg_of_neg_of_pos hneg hlen
          linarith
        rw [div_le_div_iff₀ (by linarith) hlen]
        nlinarith
    · rw [hfm]; simp

theorem engine_c10_cross_eval_recording_witness :
    ∃ d, dictGet? (getCrossEvaluations evalFailC10 respC10) "A" = some d ∧
      dictGet? d "B" = some 0 := by
  obtain ⟨h1, h2, _⟩ := engine_c10_cross_eval_recording evalFailC10 respC10
    (by decide) (by decide)
  obtain ⟨d, hd1, hd2⟩ := h1 ("A", rdA) (by simp [respC10]) ("B", rdB)
    (by simp [respC10]) (by decide)
  rw [h2 "A" rdB.response () rfl] at hd2
  exact ⟨d, hd1, hd2⟩

/-! ### Claim C6 (amended): identical sectioned texts

Membership lemmas for the sort/dedup/feature-limit pipeline, the tf-idf
rows of a duplicated document, and the section loop on two identical
responses. -/

theorem eq_nil_of_isEmpty {α : Type} (l : List α) (h : l.isEmpty = true) : l = [] := by
  cases l with
  | nil => rfl
  | cons x xs => simp at h

theorem mem_insortBy_ins {α : Type} (le : α → α → Bool) (x y : α) (l : List α) :
    y ∈ insortBy.ins le x l ↔ y = x ∨ y ∈ l := by
  induction l with
  | nil => simp [insortBy.ins]
  | cons z zs ih =>
    simp only [insortBy.ins]
    by_cases h : le x z
    · simp [h]
    · simp [h, ih]
      tauto

theorem mem_insortBy {α : Type} (le : α → α → Bool) (l : List α) (y : α) :
    y ∈ insortBy le l ↔ y ∈ l := by
  induction l with
  | nil => simp [insortBy]
  | cons x xs ih =>
    simp only [insortBy]
    rw [mem_insortBy_ins, ih, List.mem_cons]

theorem insortBy_ne_nil {α : Type} (le : α → α → Bool) (l : List α) (h : l ≠ []) :
    insortBy le l ≠ [] := by
  obtain ⟨x, hx⟩ := List.exists_mem_of_ne_nil l h
  intro hn
  have hmem := (mem_insortBy le l x).mpr hx
  rw [hn] at hmem
  cases hmem

theorem take1000_ne_nil {α : Type} (l : List α) (h : l ≠ []) : l.take 1000 ≠ [] := by
  cases l with
  | nil => exact absurd rfl h
  | cons x xs => simp

theorem mem_of_mem_dedupFirstAux (x : String) :
    ∀ (l seen : List String), x ∈ dedupFirstAux seen l → x ∈ l := by
  intro l
  induction l with
  | nil => intro seen h; simp [dedupFirstAux] at h
  | cons y ys ih =>
    intro seen h
    simp only [dedupFirstAux] at h
    by_cases hy : y ∈ seen
    · rw [if_pos hy] at h
      exact List.mem_cons_of_mem _ (ih seen h)
    · rw [if_neg hy] at h
      rcases List.mem_cons.mp h with rfl | h'
      · exact List.mem_cons_self _ _
      · exact List.mem_cons_of_mem _ (ih (y :: seen) h')

theorem mem_dedupFirstAux_of_mem (x : String) :
    ∀ (l seen : List String), x ∈ l → x ∉ seen → x ∈ dedupFirstAux seen l := by
  intro l
  induction l with
  | nil => intro seen h _; cases h
  | cons y ys ih =>
    intro seen h hx
    simp only [dedupFirstAux]
    by_cases hy : y ∈ seen
    · rw [if_pos hy]
      rcases List.mem_cons.mp h with rfl | h'
      · exact absurd hy hx
      · exact ih seen h' hx
    · rw [if_neg hy]
      rcases List.mem_cons.mp h with rfl | h'
      · exact List.mem_cons_self _ _
      · by_cases hxy : x = y
        · subst hxy; exact List.mem_cons_self _ _
        · exact List.mem_cons_of_mem _ (ih (y :: seen) h' (by simp [hxy, hx]))

theorem mem_dedupFirst_iff (l : List String) (x : String) :
    x ∈ dedupFirst l ↔ x ∈ l :=
  ⟨fun h => mem_of_mem_dedupFirstAux x l [] h,
   fun h => mem_dedupFirstAux_of_mem x l [] h (by simp)⟩

theorem mem_dictKeys_of_get {α : Type} (d : List (String × α)) (k : String) (v : α)
    (h : dictGet? d k = some v) : k ∈ dictKeys d := by
  by_contra hk
  rw [(dictGet?_eq_none_iff d k).mpr hk] at h
  cases h

theorem mem_of_dictGet? {α : Type} (d : List (String × α)) (k : String) (v : α)
    (h : dictGet? d k = some v) : (k, v) ∈ d := by
  induction d with
  | nil => cases h
  | cons p rest ih =>
    obtain ⟨k', v'⟩ := p
    simp only [dictGet?] at h
    by_cases hk : k' = k
    · rw [if_pos hk] at h
      have hv := Option.some.inj h
      exact List.mem_cons.mpr (Or.inl (by rw [← hk, ← hv]))
    · rw [if_neg hk] at h
      exact List.mem_cons_of_mem _ (ih h)

theorem mem_of_mem_limitFeatures (vocab : List String) (toks : List (List String))
    (t : String) (h : t ∈ limitFeatures vocab toks) : t ∈ vocab := by
  rw [limitFeatures, mem_insortBy] at h
  exact (mem_insortBy _ _ _).mp (List.take_sublist _ _ |>.mem h)

theorem limitFeatures_ne_nil (vocab : List String) (toks : List (List String))
    (h : vocab ≠ []) : limitFeatures vocab toks ≠ [] := by
  rw [limitFeatures]
  exact insortBy_ne_nil _ _ (take1000_ne_nil _ (insortBy_ne_nil _ _ h))

/-- The fitted vocabulary of a duplicated document is non-empty as soon as
the document has a token (on both sides of the `max_features` check). -/
theorem vocab_ne_nil (d : List String) (toks : List (List String)) (hd : d ≠ []) :
    (if (insortBy strLe (dedupFirst (d ++ d))).length ≤ 1000
     then insortBy strLe (dedupFirst (d ++ d))
     else limitFeatures (insortBy strLe (dedupFirst (d ++ d))) toks) ≠ [] := by
  have h0 : insortBy strLe (dedupFirst (d ++ d)) ≠ [] := by
    apply insortBy_ne_nil
    intro hnil
    obtain ⟨t, ht⟩ := List.exists_mem_of_ne_nil _ hd
    have hmem : t ∈ dedupFirst (d ++ d) := by
      rw [mem_dedupFirst_iff]
      exact List.mem_append.mpr (Or.inl ht)
    rw [hnil] at hmem
    cases hmem
  by_cases hc : (insortBy strLe (dedupFirst (d ++ d))).length ≤ 1000
  · rw [if_pos hc]; exact h0
  · rw [if_neg hc]; exact limitFeatures_ne_nil _ _ h0

theorem sum_eq_length_of_all_one (l : List ℚ) (h : ∀ s ∈ l, s = 1) :
    l.sum = (l.length : ℚ) := by
  induction l with
  | nil => simp
  | cons x xs ih =>
    rw [List.sum_cons, h x (List.mem_cons_self _ _),
      ih (fun s hs => h s (List.mem_cons_of_mem _ hs)), List.length_cons]
    push_cast
    ring

/-- `fit_transform` on two copies of the same document either raises (empty
vocabulary) or produces two identical rows with a nonzero coordinate. -/
theorem tfidfVectors_dup (env : Env) (hidf : ∀ n df, 0 < env.idf n df)
    (x : String) :
    tfidfVectors env [x, x] = none ∨
    ∃ v, tfidfVectors env [x, x] = some [v, v] ∧ ∃ q ∈ v, q ≠ 0 := by
  cases htf : tfidfVectors env [x, x] with
  | none => left; rfl
  | some vs =>
    right
    simp only [tfidfVectors, List.map_cons, List.map_nil, List.flatten_cons,
      List.flatten_nil, List.append_nil] at htf
    by_cases he : (if (insortBy strLe
        (dedupFirst (tokensOf env.stopWords x ++ tokensOf env.stopWords x))).length
          ≤ 1000
        then insortBy strLe
          (dedupFirst (tokensOf env.stopWords x ++ tokensOf env.stopWords x))
        else limitFeatures (insortBy strLe
          (dedupFirst (tokensOf env.stopWords x ++ tokensOf env.stopWords x)))
          [tokensOf env.stopWords x, tokensOf env.stopWords x]).isEmpty = true
    · rw [if_pos he] at htf
      cases htf
    · rw [if_neg he] at htf
      have hv := Option.some.inj htf
      subst hv
      refine ⟨_, rfl, ?_⟩
      have hne : ¬ (if (insortBy strLe
          (dedupFirst (tokensOf env.stopWords x ++ tokensOf env.stopWords x))).length
            ≤ 1000
          then insortBy strLe
            (dedupFirst (tokensOf env.stopWords x ++ tokensOf env.stopWords x))
          else limitFeatures (insortBy strLe
            (dedupFirst (tokensOf env.stopWords x ++ tokensOf env.stopWords x)))
            [tokensOf env.stopWords x, tokensOf env.stopWords x]) = [] := by
        intro hnil
        exact he (by rw [hnil]; rfl)
      obtain ⟨t, ht⟩ := List.exists_mem_of_ne_nil _ hne
      have htd : t ∈ tokensOf env.stopWords x := by
        by_cases hc : (insortBy strLe
            (dedupFirst (tokensOf env.stopWords x ++ tokensOf env.stopWords x))).length
              ≤ 1000
        · rw [if_pos hc, mem_insortBy, mem_dedupFirst_iff] at ht
          rcases List.mem_append.mp ht with h | h <;> exact h
        · rw [if_neg hc] at ht
          have hmem := mem_of_mem_limitFeatures _ _ _ ht
          rw [mem_insortBy, mem_dedupFirst_iff] at hmem
          rcases List.mem_append.mp hmem with h | h <;> exact h
      refine ⟨(countOcc t (tokensOf env.stopWords x) : ℚ) *
        env.idf ([x, x].length)
          (dfCount t [tokensOf env.stopWords x, tokensOf env.stopWords x]), ?_, ?_⟩
      · exact List.mem_map_of_mem _ ht
      · apply mul_ne_zero
        · rw [Nat.cast_ne_zero, countOcc]
          exact Nat.pos_iff_ne_zero.mp (List.count_pos_iff.mpr htd)
        · exact ne_of_gt (hidf _ _)

/-- On a document with at least one token the vectorizer cannot raise:
the vocabulary is non-empty, so `fit_transform` returns the two identical
rows. -/
theorem tfidfVectors_dup_some (env : Env) (hidf : ∀ n df, 0 < env.idf n df)
    (x : String) (hd : tokensOf env.stopWords x ≠ []) :
    ∃ v, tfidfVectors env [x, x] = some [v, v] ∧ ∃ q ∈ v, q ≠ 0 := by
  rcases tfidfVectors_dup env hidf x with hnone | hsome
  · exfalso
    simp only [tfidfVectors, List.map_cons, List.map_nil, List.flatten_cons,
      List.flatten_nil, List.append_nil] at hnone
    by_cases he : (if (insortBy strLe
        (dedupFirst (tokensOf env.stopWords x ++ tokensOf env.stopWords x))).length
          ≤ 1000
        then insortBy strLe
          (dedupFirst (tokensOf env.stopWords x ++ tokensOf env.stopWords x))
        else limitFeatures (insortBy strLe
          (dedupFirst (tokensOf env.stopWords x ++ tokensOf env.stopWords x)))
          [tokensOf env.stopWords x, tokensOf env.stopWords x]).isEmpty = true
    · exact vocab_ne_nil (tokensOf env.stopWords x)
        [tokensOf env.stopWords x, tokensOf env.stopWords x] hd
        (eq_nil_of_isEmpty _ he)
    · rw [if_neg he] at hnone
      cases hnone
  · exact hsome

set_option maxHeartbeats 3200000 in
/-- The section loop over two identical responses, when every section with
non-empty content yields at least one vectorizer token: the `try:` never
raises, and the loop returns the similarities it recorded — all equal to
`1` — one per processed section with non-empty shared content. -/
theorem sectionFold_dup (env : Env)
    (hcos : ∀ u : List ℚ, (∃ y ∈ u, y ≠ 0) → env.cos u u = 1)
    (hidf : ∀ n df, 0 < env.idf n df)
    (S : List (String × String))
    (htok : ∀ p ∈ S, p.2 ≠ "" → tokensOf env.stopWords (normalizeText p.2) ≠ [])
    (names : List String) :
    ∀ sims0 : List ℚ, (∀ s ∈ sims0, s = 1) →
      ∃ sims, names.foldl (sectionStep env [S, S]) (Except.ok sims0) = Except.ok sims ∧
        (∀ s ∈ sims, s = 1) ∧
        (sims = [] → sims0 = [] ∧ ∀ nm ∈ names, (dictGet? S nm).getD "" = "") := by
  induction names with
  | nil =>
    intro sims0 h0
    exact ⟨sims0, rfl, h0, fun h => ⟨h, by simp⟩⟩
  | cons nm rest ih =>
    intro sims0 h0
    rw [List.foldl_cons]
    by_cases hg : (dictGet? S nm).getD "" = ""
    · have hstep : sectionStep env [S, S] (Except.ok sims0) nm = Except.ok sims0 := by
        simp only [sectionStep, List.map_cons, List.map_nil]
        rw [if_neg (by simp [hg])]
      rw [hstep]
      obtain ⟨sims, hss, h1, h2⟩ := ih sims0 h0
      refine ⟨sims, hss, h1, fun hnil => ⟨(h2 hnil).1, fun m hm => ?_⟩⟩
      rcases List.mem_cons.mp hm with rfl | hm'
      · exact hg
      · exact (h2 hnil).2 m hm'
    · have hget : dictGet? S nm = some ((dictGet? S nm).getD "") := by
        cases hq : dictGet? S nm with
        | none => exact absurd (by rw [hq]; rfl : (dictGet? S nm).getD "" = "") hg
        | some c => rfl
      have hmemS : (nm, (dictGet? S nm).getD "") ∈ S := mem_of_dictGet? S nm _ hget
      have htk : tokensOf env.stopWords
          (normalizeText ((dictGet? S nm).getD "")) ≠ [] := htok _ hmemS hg
      obtain ⟨v, hsome, hnz⟩ := tfidfVectors_dup_some env hidf
        (normalizeText ((dictGet? S nm).getD "")) htk
      have hcv : avgPairCos env [v, v] = 1 := by
        simp only [avgPairCos, List.map_cons, List.map_nil, List.sum_cons,
          List.sum_nil, List.length_cons, List.length_nil, hcos v hnz]
        norm_num
      have hstep : sectionStep env [S, S] (Except.ok sims0) nm =
          Except.ok (sims0 ++ [1]) := by
        simp only [sectionStep, List.map_cons, List.map_nil]
        rw [if_pos (by simp [hg])]
        rw [hsome]
        show Except.ok (sims0 ++ [avgPairCos env [v, v]]) = Except.ok (sims0 ++ [1])
        rw [hcv]
      rw [hstep]
      have h0' : ∀ s ∈ sims0 ++ [1], s = (1:ℚ) := by
        intro s hs
        rcases List.mem_append.mp hs with hs | hs
        · exact h0 s hs
        · simpa using hs
      obtain ⟨sims, hss, h1, h2⟩ := ih (sims0 ++ [1]) h0'
      exact ⟨sims, hss, h1, fun hnil => absurd (h2 hnil).1 (by simp)⟩

/-- Claim C6 (amended): `similarity({x: A, y: A}) = 1.0` holds for every
text `A` that has at least one upper-case labelled section with non-empty
content and whose every non-empty section content yields at least one
vectorizer token (a two-or-more-character word outside the stop list)
after normalization, under the cosine and idf axioms (`cos u u = 1` for a
vector with a nonzero coordinate, `idf > 0`): every section the loop
records contributes cosine `1` on two identical tf-idf rows, the loop
records at least one value, and their mean is `1`.  Without a qualifying
section the loop records nothing and the similarity is `0.0` — the
counterexample above; and when some section's content has no token the
vectorizer raises and the `SequenceMatcher` fallback decides the result
instead. -/
theorem engine_c6_identical_sectioned_amended (env : Env)
    (hcos : ∀ u : List ℚ, (∃ y ∈ u, y ≠ 0) → env.cos u u = 1)
    (hidf : ∀ n df, 0 < env.idf n df)
    (A : String)
    (hsec : ∃ nm c, dictGet? (extractSections A) nm = some c ∧ c ≠ "")
    (htok : ∀ p ∈ extractSections A, p.2 ≠ "" →
      tokensOf env.stopWords (normalizeText p.2) ≠ []) :
    calcSimilarity env [A, A] = 1 := by
  obtain ⟨nm, c, hget, hc⟩ := hsec
  simp only [calcSimilarity]
  rw [if_neg (by simp)]
  have hmap : [A, A].map extractSections = [extractSections A, extractSections A] := by
    simp
  rw [hmap]
  have hnames : ([extractSections A, extractSections A].map dictKeys).flatten =
      dictKeys (extractSections A) ++ dictKeys (extractSections A) := by
    simp
  rw [hnames]
  have hmem : nm ∈ dedupFirst
      (dictKeys (extractSections A) ++ dictKeys (extractSections A)) := by
    rw [mem_dedupFirst_iff]
    exact List.mem_append.mpr (Or.inl (mem_dictKeys_of_get _ _ _ hget))
  obtain ⟨sims, hok, h1, h2⟩ := sectionFold_dup env hcos hidf (extractSections A) htok
    (dedupFirst (dictKeys (extractSections A) ++ dictKeys (extractSections A)))
    [] (by simp)
  rw [hok]
  show (if sims.isEmpty = true then (0:ℚ) else sims.sum / (sims.length : ℚ)) = 1
  have hne : sims ≠ [] := by
    intro hnil
    have hzero := (h2 hnil).2 nm hmem
    rw [hget] at hzero
    exact hc (by simpa using hzero)
  rw [if_neg (by simpa using hne)]
  rw [sum_eq_length_of_all_one sims h1]
  exact div_self (by
    rw [Nat.cast_ne_zero]
    simpa using hne)

/-- A response with one labelled section whose content has vectorizer
tokens. -/
def c6Resp : String := "IMPLEMENTATION: the answer"

theorem engine_c6_identical_sectioned_amended_witness :
    calcSimilarity envW [c6Resp, c6Resp] = 1 :=
  engine_c6_identical_sectioned_amended envW (fun u h => cosW_self u h) idfW_pos
    c6Resp ⟨"IMPLEMENTATION", "the answer", by decide, by decide⟩
    (by decide)

end CE
